import Mathlib

/-!
Verification development for the scrape-and-extract pipeline of the
short-news backend (`app/scrapers/rate_limiter.py` and
`app/scrapers/universal_scraper.py`).

The Python source is shallowly embedded: pure functions become Lean
functions, the rate limiter's mutable per-key history becomes explicit
state passing, clock reads become explicit rational-valued parameters
constrained by a validity predicate, and fallible calls return `Option`
or `Except`.  External libraries (httpx, BeautifulSoup, the `re` module,
`urllib.parse`) are modelled either by oracle parameters or by
simplified executable implementations documented at their definitions.

`universal_scraper.py` defines the class `UniversalBlogScraper` twice;
the second definition (line 522) shadows the first (line 63) at import
time.  Both are embedded here: namespace `V1` holds the first
(config-registry / rate-limited) class, namespace `V2` the second
(heuristic) class, which is the one actually bound to the module name.
-/

namespace ShortNews

/-! ## Python string primitives

Helpers mirroring the Python string operations used by the scraper.
Python slicing/`len` operate on code points, matching Lean `Char` lists.
-/

/-- Python `s[:n]` (also used for `[:500]`, `[:200]`, `[:2000]`). -/
def pyTake (n : Nat) (s : String) : String := ⟨s.data.take n⟩

/-- Python `s[i:j]` slice with clamping. -/
def pySlice (i j : Nat) (s : String) : String := ⟨(s.data.take j).drop i⟩

/-- Python `needle in hay` on lists of characters. -/
def infixOf (needle : List Char) : List Char → Bool
  | [] => needle.isEmpty
  | c :: t => needle.isPrefixOf (c :: t) || infixOf needle t

/-- Python `needle in hay` for strings (substring containment). -/
def pyContains (hay needle : String) : Bool := infixOf needle.data hay.data

/-- Python `str.lower()` (ASCII case folding suffices for the keyword
tables and URL patterns the scraper uses). -/
def pyLower (s : String) : String := ⟨s.data.map Char.toLower⟩

theorem pyTake_length_le (n : Nat) (s : String) : (pyTake n s).length ≤ n := by
  show (s.data.take n).length ≤ n
  exact List.length_take_le n s.data

theorem infixOf_correct (needle hay : List Char) :
    infixOf needle hay = true ↔ ∃ pre post, hay = pre ++ needle ++ post := by
  induction hay with
  | nil =>
    simp only [infixOf, List.isEmpty_iff]
    constructor
    · rintro rfl; exact ⟨[], [], rfl⟩
    · rintro ⟨pre, post, h⟩
      rcases List.append_eq_nil.mp h.symm with ⟨h1, h2⟩
      rcases List.append_eq_nil.mp h1 with ⟨h3, h4⟩
      exact h4
  | cons c t ih =>
    simp only [infixOf, Bool.or_eq_true, ih]
    constructor
    · rintro (hpre | ⟨pre, post, rfl⟩)
      · rcases List.isPrefixOf_iff_prefix.mp hpre with ⟨post, hp⟩
        exact ⟨[], post, by simpa using hp.symm⟩
      · exact ⟨c :: pre, post, rfl⟩
    · rintro ⟨pre, post, hp⟩
      cases pre with
      | nil =>
        left
        exact List.isPrefixOf_iff_prefix.mpr ⟨post, by simpa using hp.symm⟩
      | cons d dt =>
        right
        refine ⟨dt, post, ?_⟩
        have := hp
        simp only [List.cons_append] at this
        exact (List.cons.injEq _ _ _ _ ▸ this).2

/-! ## RateLimiter (`app/scrapers/rate_limiter.py`)

`RateLimiter.throttle(key, max_requests, period)` keeps, per key, a
deque of admission timestamps.  Clock reads (`time.monotonic()`) are
embedded as explicit parameters `t1` (on entry), `t2` (the read used by
the post-sleep eviction loop) and `t3` (the appended admission time),
constrained by `validRun` below.  Timestamps are rationals (a faithful
ordered-field stand-in for Python floats).
-/

/-- The eviction loop `while window and now - window[0] >= period:
window.popleft()` (lines 36-37 and 44-45 of `rate_limiter.py`). -/
def evict (p now : ℚ) : List ℚ → List ℚ
  | [] => []
  | t :: rest => if p ≤ now - t then evict p now rest else t :: rest

/-- One `throttle` call for one key, past the non-positive guard: evict
at `t1`; if the remaining count has reached `max_requests`, sleep and
re-evict at `t2`; finally append the admission time `t3`
(lines 32-47 of `rate_limiter.py`). -/
def throttleStep (mx : ℤ) (p t1 t2 t3 : ℚ) (hist : List ℚ) : List ℚ :=
  let w1 := evict p t1 hist
  if mx ≤ (w1.length : ℤ) then evict p t2 w1 ++ [t3] else w1 ++ [t3]

/-- Full `throttle` on the multi-key history map, including the
`max_requests <= 0 or period <= 0` no-op guard (lines 26-28). -/
def throttle (key : String) (mx : ℤ) (p t1 t2 t3 : ℚ)
    (st : String → List ℚ) : String → List ℚ :=
  if mx ≤ 0 ∨ p ≤ 0 then st
  else fun k => if k = key then throttleStep mx p t1 t2 t3 (st k) else st k

/-- The three clock reads observed by one completed `throttle` call. -/
structure ThrottleCall where
  t1 : ℚ
  t2 : ℚ
  t3 : ℚ
deriving Repr, DecidableEq

/-- The sleep of lines 40-42: when the window is full, the caller sleeps
`period - (now - window[0])` seconds, so the post-sleep clock read `t2`
is at least `t1` plus that amount (`asyncio.sleep` never wakes early). -/
def sleepOK (mx : ℤ) (p : ℚ) (c : ThrottleCall) (hist : List ℚ) : Bool :=
  if mx ≤ ((evict p c.t1 hist).length : ℤ) then
    match evict p c.t1 hist with
    | [] => true
    | h0 :: _ =>
      if 0 < p - (c.t1 - h0) then decide (c.t1 + (p - (c.t1 - h0)) ≤ c.t2) else true
  else true

/-- A physically realisable sequence of completed `throttle` calls for a
single key with a fixed configuration: the monotonic clock never goes
backwards across the reads `t1 ≤ t2 ≤ t3` of each call and across
consecutive calls, and sleeping delays `t2` as `sleepOK` requires.  The
per-key `asyncio.Lock` serialises the calls, so a list models them. -/
def validRun (mx : ℤ) (p : ℚ) (clock : ℚ) (hist : List ℚ) : List ThrottleCall → Bool
  | [] => true
  | c :: rest =>
    decide (clock ≤ c.t1) && decide (c.t1 ≤ c.t2) && decide (c.t2 ≤ c.t3) &&
    sleepOK mx p c hist &&
    validRun mx p c.t3 (throttleStep mx p c.t1 c.t2 c.t3 hist) rest

/-- Number of admitted calls inside the rolling half-open window
`(a, a + p]`. -/
def countW (p a : ℚ) (l : List ℚ) : ℕ :=
  l.countP fun t => decide (a < t) && decide (t ≤ a + p)

/-! Lemmas about `evict`. -/

theorem evict_nil (p now : ℚ) : evict p now [] = [] := rfl

theorem evict_cons (p now t : ℚ) (rest : List ℚ) :
    evict p now (t :: rest) = if p ≤ now - t then evict p now rest else t :: rest := rfl

theorem evict_eq_append (p now : ℚ) (l : List ℚ) :
    ∃ d, l = d ++ evict p now l ∧ ∀ x ∈ d, p ≤ now - x := by
  induction l with
  | nil => exact ⟨[], rfl, by simp⟩
  | cons t rest ih =>
    by_cases h : p ≤ now - t
    · rcases ih with ⟨d, hd, hall⟩
      refine ⟨t :: d, ?_, ?_⟩
      · rw [evict_cons, if_pos h, List.cons_append, ← hd]
      · intro x hx
        rcases List.mem_cons.mp hx with rfl | hx
        · exact h
        · exact hall x hx
    · exact ⟨[], by rw [evict_cons, if_neg h]; rfl, by simp⟩

theorem evict_head_lt (p now : ℚ) (l : List ℚ) (h0 : ℚ)
    (h : (evict p now l).head? = some h0) : now - h0 < p := by
  induction l with
  | nil => rw [evict_nil] at h; exact absurd h (by simp)
  | cons t rest ih =>
    by_cases hc : p ≤ now - t
    · rw [evict_cons, if_pos hc] at h
      exact ih h
    · rw [evict_cons, if_neg hc] at h
      simp only [List.head?_cons, Option.some.injEq] at h
      subst h
      exact lt_of_not_le hc

theorem evict_length_le (p now : ℚ) (l : List ℚ) :
    (evict p now l).length ≤ l.length := by
  induction l with
  | nil => rw [evict_nil]
  | cons t rest ih =>
    by_cases hc : p ≤ now - t
    · rw [evict_cons, if_pos hc]
      exact le_trans ih (Nat.le_succ _)
    · rw [evict_cons, if_neg hc]

theorem evict_cons_of_le (p now h0 : ℚ) (l : List ℚ) (h : p ≤ now - h0) :
    evict p now (h0 :: l) = evict p now l := by
  rw [evict_cons, if_pos h]

theorem evict_subset (p now : ℚ) (l : List ℚ) : ∀ x ∈ evict p now l, x ∈ l := by
  rcases evict_eq_append p now l with ⟨d, hd, _⟩
  intro x hx
  rw [hd]
  exact List.mem_append_right d hx

/-! Counting lemmas. -/

theorem countW_append (p a : ℚ) (l1 l2 : List ℚ) :
    countW p a (l1 ++ l2) = countW p a l1 + countW p a l2 :=
  List.countP_append _ _ _

theorem countW_le_length (p a : ℚ) (l : List ℚ) : countW p a l ≤ l.length :=
  List.countP_le_length _

theorem countW_eq_zero_of_old (p a : ℚ) (l : List ℚ) (h : ∀ x ∈ l, x ≤ a) :
    countW p a l = 0 := by
  refine List.countP_eq_zero.mpr ?_
  intro x hx
  simp only [Bool.and_eq_true, decide_eq_true_eq, not_and]
  intro hlt
  exact absurd (h x hx) (not_le.mpr hlt)

theorem countW_singleton_le (p a t : ℚ) : countW p a [t] ≤ 1 :=
  countW_le_length p a [t]

theorem countW_singleton_eq_zero (p a t : ℚ) (h : ¬(a < t ∧ t ≤ a + p)) :
    countW p a [t] = 0 := by
  refine List.countP_eq_zero.mpr ?_
  intro x hx
  simp only [List.mem_singleton] at hx
  subst hx
  simp only [Bool.and_eq_true, decide_eq_true_eq]
  exact h

/-! ### The rolling-window admission bound (claim C1) -/

theorem validRun_cons (mx : ℤ) (p clock : ℚ) (hist : List ℚ) (c : ThrottleCall)
    (rest : List ThrottleCall) :
    validRun mx p clock hist (c :: rest) =
      (decide (clock ≤ c.t1) && decide (c.t1 ≤ c.t2) && decide (c.t2 ≤ c.t3) &&
       sleepOK mx p c hist &&
       validRun mx p c.t3 (throttleStep mx p c.t1 c.t2 c.t3 hist) rest) := rfl

theorem throttleStep_def (mx : ℤ) (p t1 t2 t3 : ℚ) (hist : List ℚ) :
    throttleStep mx p t1 t2 t3 hist =
      if mx ≤ ((evict p t1 hist).length : ℤ) then evict p t2 (evict p t1 hist) ++ [t3]
      else evict p t1 hist ++ [t3] := rfl

theorem sleepOK_full (mx : ℤ) (p : ℚ) (c : ThrottleCall) (hist : List ℚ)
    (h0 : ℚ) (tl : List ℚ) (hw : evict p c.t1 hist = h0 :: tl)
    (hfull : mx ≤ ((evict p c.t1 hist).length : ℤ))
    (hsf : 0 < p - (c.t1 - h0)) (hs : sleepOK mx p c hist = true) :
    c.t1 + (p - (c.t1 - h0)) ≤ c.t2 := by
  unfold sleepOK at hs
  rw [if_pos hfull, hw] at hs
  have hs2 : (if 0 < p - (c.t1 - h0) then decide (c.t1 + (p - (c.t1 - h0)) ≤ c.t2)
      else true) = true := hs
  rw [if_pos hsf] at hs2
  exact of_decide_eq_true hs2

/-- The inductive invariant behind the rolling-window bound: the full
admission history splits as `pre ++ hist` where `pre` holds only
timestamps at least one window old, the live deque `hist` never exceeds
`max_requests`, and every window of length `p` over the history so far
is within the bound.  Each completed call preserves all of this. -/
theorem runBound (mx : ℤ) (p : ℚ) (hmx : 0 < mx) :
    ∀ (trace : List ThrottleCall) (clock : ℚ) (hist pre : List ℚ),
      validRun mx p clock hist trace = true →
      (∀ x ∈ pre, x ≤ clock - p) →
      (∀ x ∈ hist, x ≤ clock) →
      ((hist.length : ℤ) ≤ mx) →
      (∀ b, (countW p b (pre ++ hist) : ℤ) ≤ mx) →
      ∀ a, (countW p a (pre ++ hist ++ trace.map ThrottleCall.t3) : ℤ) ≤ mx := by
  intro trace
  induction trace with
  | nil =>
    intro clock hist pre _ _ _ _ hcount a
    simpa using hcount a
  | cons c rest ih =>
    intro clock hist pre hrun hpre hhist hlen hcount a
    rw [validRun_cons] at hrun
    simp only [Bool.and_eq_true, decide_eq_true_eq] at hrun
    obtain ⟨⟨⟨⟨hc1, hc2⟩, hc3⟩, hslp⟩, hrest⟩ := hrun
    obtain ⟨d1, hd1, hd1old⟩ := evict_eq_append p c.t1 hist
    have hw1len : ((evict p c.t1 hist).length : ℤ) ≤ (hist.length : ℤ) := by
      exact_mod_cast evict_length_le p c.t1 hist
    by_cases hcase : mx ≤ ((evict p c.t1 hist).length : ℤ)
    · -- the window was full: the call slept, so the oldest entry is gone
      have hne : evict p c.t1 hist ≠ [] := by
        intro h
        rw [h] at hcase
        simp only [List.length_nil, Nat.cast_zero] at hcase
        omega
      obtain ⟨h0, tl, hw⟩ := List.exists_cons_of_ne_nil hne
      have hsf : 0 < p - (c.t1 - h0) := by
        have := evict_head_lt p c.t1 hist h0 (by rw [hw]; rfl)
        linarith
      have hsleep : c.t1 + (p - (c.t1 - h0)) ≤ c.t2 :=
        sleepOK_full mx p c hist h0 tl hw hcase hsf hslp
      have hh0t2 : p ≤ c.t2 - h0 := by linarith
      have hstep : throttleStep mx p c.t1 c.t2 c.t3 hist = evict p c.t2 tl ++ [c.t3] := by
        rw [throttleStep_def, if_pos hcase, hw, evict_cons_of_le p c.t2 h0 tl hh0t2]
      obtain ⟨d2, hd2, hd2old⟩ := evict_eq_append p c.t2 tl
      have hdh : hist = d1 ++ (h0 :: tl) := by rw [hd1, hw]
      have hrest2 : validRun mx p c.t3 (evict p c.t2 tl ++ [c.t3]) rest = true := by
        rw [← hstep]; exact hrest
      have hpre2 : ∀ x ∈ pre ++ d1 ++ h0 :: d2, x ≤ c.t3 - p := by
        intro x hx
        rcases List.mem_append.mp hx with hx | hx
        · rcases List.mem_append.mp hx with hx | hx
          · have := hpre x hx; linarith
          · have := hd1old x hx; linarith
        · rcases List.mem_cons.mp hx with rfl | hx
          · linarith
          · have := hd2old x hx; linarith
      have hhist2 : ∀ x ∈ evict p c.t2 tl ++ [c.t3], x ≤ c.t3 := by
        intro x hx
        rcases List.mem_append.mp hx with hx | hx
        · have hxtl : x ∈ tl := evict_subset p c.t2 tl x hx
          have hxh : x ∈ hist := by
            rw [hdh]
            exact List.mem_append_right d1 (List.mem_cons_of_mem h0 hxtl)
          have := hhist x hxh; linarith
        · rcases List.mem_singleton.mp hx with rfl; linarith
      have hlentl : tl.length + 1 ≤ hist.length := by
        rw [hdh]
        simp only [List.length_append, List.length_cons]
        omega
      have hw2len : (evict p c.t2 tl).length ≤ tl.length := evict_length_le p c.t2 tl
      have hlen2 : (((evict p c.t2 tl ++ [c.t3]).length : ℤ)) ≤ mx := by
        simp only [List.length_append, List.length_cons, List.length_nil]
        push_cast
        omega
      have hlist : (pre ++ d1 ++ h0 :: d2) ++ (evict p c.t2 tl ++ [c.t3]) =
          (pre ++ hist) ++ [c.t3] := by
        conv_rhs => rw [hdh, hd2]
        simp [List.append_assoc]
      have hcount2 : ∀ b, (countW p b ((pre ++ d1 ++ h0 :: d2) ++ (evict p c.t2 tl ++ [c.t3])) : ℤ) ≤ mx := by
        intro b
        rw [hlist]
        by_cases hwin : b < c.t3 ∧ c.t3 ≤ b + p
        · have hb : c.t3 - p ≤ b := by linarith [hwin.2]
          have hz : countW p b (pre ++ hist) =
              countW p b pre + countW p b d1 + countW p b [h0] + countW p b d2 +
                countW p b (evict p c.t2 tl) := by
            conv_lhs => rw [hdh, hd2]
            rw [show d1 ++ h0 :: (d2 ++ evict p c.t2 tl) =
              d1 ++ ([h0] ++ (d2 ++ evict p c.t2 tl)) from rfl]
            simp only [countW_append]
            ring
          have hzp : countW p b pre = 0 :=
            countW_eq_zero_of_old p b pre fun x hx => by have := hpre x hx; linarith
          have hz1 : countW p b d1 = 0 :=
            countW_eq_zero_of_old p b d1 fun x hx => by have := hd1old x hx; linarith
          have hzh : countW p b [h0] = 0 :=
            countW_eq_zero_of_old p b [h0] fun x hx => by
              rcases List.mem_singleton.mp hx with rfl; linarith
          have hz2 : countW p b d2 = 0 :=
            countW_eq_zero_of_old p b d2 fun x hx => by have := hd2old x hx; linarith
          have hw2 : countW p b (evict p c.t2 tl) ≤ (evict p c.t2 tl).length :=
            countW_le_length _ _ _
          have ht3 : countW p b [c.t3] ≤ 1 := countW_singleton_le _ _ _
          rw [countW_append]
          push_cast
          rw [hz, hzp, hz1, hzh, hz2]
          push_cast
          omega
        · have ht3 : countW p b [c.t3] = 0 := countW_singleton_eq_zero p b c.t3 hwin
          rw [countW_append, ht3]
          simpa using hcount b
      have := ih c.t3 (evict p c.t2 tl ++ [c.t3]) (pre ++ d1 ++ h0 :: d2)
        hrest2 hpre2 hhist2 hlen2 hcount2 a
      rw [hlist] at this
      simp only [List.map_cons]
      rw [List.append_cons]
      exact this
    · -- the window had room: no sleep, just append
      have hstep : throttleStep mx p c.t1 c.t2 c.t3 hist = evict p c.t1 hist ++ [c.t3] := by
        rw [throttleStep_def, if_neg hcase]
      have hrest2 : validRun mx p c.t3 (evict p c.t1 hist ++ [c.t3]) rest = true := by
        rw [← hstep]; exact hrest
      have hpre2 : ∀ x ∈ pre ++ d1, x ≤ c.t3 - p := by
        intro x hx
        rcases List.mem_append.mp hx with hx | hx
        · have := hpre x hx; linarith
        · have := hd1old x hx; linarith
      have hhist2 : ∀ x ∈ evict p c.t1 hist ++ [c.t3], x ≤ c.t3 := by
        intro x hx
        rcases List.mem_append.mp hx with hx | hx
        · have := hhist x (evict_subset p c.t1 hist x hx); linarith
        · rcases List.mem_singleton.mp hx with rfl; linarith
      have hlen2 : (((evict p c.t1 hist ++ [c.t3]).length : ℤ)) ≤ mx := by
        simp only [List.length_append, List.length_cons, List.length_nil]
        push_cast
        omega
      have hlist : (pre ++ d1) ++ (evict p c.t1 hist ++ [c.t3]) = (pre ++ hist) ++ [c.t3] := by
        conv_rhs => rw [hd1]
        simp [List.append_assoc]
      have hcount2 : ∀ b, (countW p b ((pre ++ d1) ++ (evict p c.t1 hist ++ [c.t3])) : ℤ) ≤ mx := by
        intro b
        rw [hlist]
        by_cases hwin : b < c.t3 ∧ c.t3 ≤ b + p
        · have hb : c.t3 - p ≤ b := by linarith [hwin.2]
          have hz : countW p b (pre ++ hist) =
              countW p b pre + countW p b d1 + countW p b (evict p c.t1 hist) := by
            conv_lhs => rw [hd1]
            simp only [countW_append]
            ring
          have hzp : countW p b pre = 0 :=
            countW_eq_zero_of_old p b pre fun x hx => by have := hpre x hx; linarith
          have hz1 : countW p b d1 = 0 :=
            countW_eq_zero_of_old p b d1 fun x hx => by have := hd1old x hx; linarith
          have hw1 : countW p b (evict p c.t1 hist) ≤ (evict p c.t1 hist).length :=
            countW_le_length _ _ _
          have ht3 : countW p b [c.t3] ≤ 1 := countW_singleton_le _ _ _
          rw [countW_append]
          push_cast
          rw [hz, hzp, hz1]
          push_cast
          omega
        · have ht3 : countW p b [c.t3] = 0 := countW_singleton_eq_zero p b c.t3 hwin
          rw [countW_append, ht3]
          simpa using hcount b
      have := ih c.t3 (evict p c.t1 hist ++ [c.t3]) (pre ++ d1)
        hrest2 hpre2 hhist2 hlen2 hcount2 a
      rw [hlist] at this
      simp only [List.map_cons]
      rw [List.append_cons]
      exact this

/-- C1: for every key and every configuration with `max_requests > 0` and
`window_seconds > 0`, in any sequence of completed
`throttle(key, max_requests, window_seconds)` calls, the number of calls
admitted for that key within any rolling interval of length
`window_seconds` never exceeds `max_requests`.  Windows are the
half-open intervals `(a, a + window]` matching the strict eviction
condition `now - window[0] >= period` of the code. -/
theorem C1_rate_limiter_window_bound (mx : ℤ) (p c0 a : ℚ) (trace : List ThrottleCall)
    (hmx : 0 < mx) (hp : 0 < p) (hrun : validRun mx p c0 [] trace = true) :
    (countW p a (trace.map ThrottleCall.t3) : ℤ) ≤ mx := by
  have h0 : (0 : ℚ) < p := hp
  have := runBound mx p hmx trace c0 [] [] hrun
    (by intro x hx; simp at hx) (by intro x hx; simp at hx)
    (by simp; omega) (by intro b; simp [countW]; omega) a
  simpa using this

theorem C1_rate_limiter_window_bound_witness :
    0 < (1 : ℤ) ∧ 0 < (1 : ℚ) ∧
      validRun 1 1 0 [] [⟨1, 1, 1⟩] = true ∧
      (countW 1 0 ([(⟨1, 1, 1⟩ : ThrottleCall)].map ThrottleCall.t3) : ℤ) ≤ 1 :=
  ⟨by decide, by decide, by decide,
    C1_rate_limiter_window_bound 1 1 0 0 [⟨1, 1, 1⟩] (by decide) (by decide) (by decide)⟩

/-- C10: a `throttle(key, max_requests, period)` call leaves the
timestamp history of every other key unchanged, and when
`max_requests ≤ 0` or `period ≤ 0` it also leaves the history of `key`
itself unchanged (the guard at lines 26-28 returns before touching the
history). -/
theorem C10_throttle_frame (key k2 : String) (mx : ℤ) (p t1 t2 t3 : ℚ)
    (st : String → List ℚ) :
    (k2 ≠ key → throttle key mx p t1 t2 t3 st k2 = st k2) ∧
    ((mx ≤ 0 ∨ p ≤ 0) → throttle key mx p t1 t2 t3 st key = st key) := by
  constructor
  · intro hne
    unfold throttle
    by_cases hg : mx ≤ 0 ∨ p ≤ 0
    · rw [if_pos hg]
    · rw [if_neg hg]
      simp [hne]
  · intro hg
    unfold throttle
    rw [if_pos hg]

theorem C10_throttle_frame_witness :
    ("b" ≠ "a" ∧ throttle "a" 2 1 0 0 0 (fun _ => [5]) "b" = [5]) ∧
    (((0 : ℤ) ≤ 0 ∨ (1 : ℚ) ≤ 0) ∧ throttle "a" 0 1 0 0 0 (fun _ => [5]) "a" = [5]) :=
  ⟨⟨by decide, (C10_throttle_frame "a" "b" 2 1 0 0 0 (fun _ => [5])).1 (by decide)⟩,
    ⟨Or.inl le_rfl, (C10_throttle_frame "a" "a" 0 1 0 0 0 (fun _ => [5])).2 (Or.inl le_rfl)⟩⟩

/-! ## Configuration data model

`universal_scraper.py` imports `SourceConfig` from
`app.scrapers.config_loader`, a module of this repository that is not
under src/; the structures below are modelled from the spec (§3). -/

/-- Modelled from the spec: `RetryPolicy` of the missing
`app/scrapers/config_loader.py` — "attempts (≥0 additional retries
beyond the first try), backoff_factor (multiplicative exponential
base)".  `attempts : ℕ` encodes the spec's `≥ 0` invariant. -/
structure RetryPolicy where
  attempts : ℕ
  backoff_factor : ℚ
deriving Repr, DecidableEq

/-- Modelled from the spec: `RateLimitPolicy` — "max requests,
time-window length"; non-positive values mean unthrottled. -/
structure RateLimitPolicy where
  requests : ℤ
  interval : ℚ
deriving Repr, DecidableEq

/-- Modelled from the spec: `SourceConfig` of the missing
`app/scrapers/config_loader.py` (§3: urls, source-type tag, optional
selector list, retry policy, rate-limit policy, min delay, optional
article cap, proxy/headless flags, optional timeout override). -/
structure SourceConfig where
  id : String
  urls : List String
  source_type : String
  selectors : Option (List String)
  retry : RetryPolicy
  rate_limit : RateLimitPolicy
  min_delay : ℚ
  max_articles : Option ℕ
  use_proxy : Bool
  use_headless : Bool
  timeout : Option ℚ
deriving Repr, DecidableEq

/-- The environment flags (`app.core.config.settings`) read by the
embedded code paths. -/
structure Settings where
  headlessEnabled : Bool
  snapshotsEnabled : Bool
deriving Repr, DecidableEq

/-! ## `_fetch_with_retry` (V1 class, lines 282-325) -/

/-- Result of one `self.session.get(url, ...)` call: either the
transport raises (`httpx.TimeoutException` / connection-level
`httpx.HTTPError`), or a response arrives with a status code, a body
text and a post-redirect final URL. -/
inductive GetOutcome where
  | fail
  | resp (status : ℕ) (text : String) (finalUrl : String)
deriving Repr, DecidableEq

/-- `_requires_headless` (lines 491-497): status 403/503, or a challenge
marker inside the first 2000 characters of the body. -/
def requiresHeadless (status : ℕ) (text : String) : Bool :=
  if status = 403 || status = 503 then true
  else
    pyContains (pyTake 2000 text) "Just a moment..." ||
      pyContains (pyLower (pyTake 2000 text)) "cf-browser-verification"

/-- `_can_use_headless` (lines 499-500). -/
def canUseHeadless (st : Settings) (cfg : SourceConfig) : Bool :=
  cfg.use_headless || st.headlessEnabled

/-- The `for attempt in range(attempts)` loop of `_fetch_with_retry`
(lines 293-325).  The `k`-th transport outcome is `transport k`; the
headless renderer (`fetch_page_with_headless` from
`app/scrapers/headless.py`, a module of this repository not under src/;
spec contract `render(url, timeout) -> html_or_none`) is the oracle
`headless`.  `httpx.Response.raise_for_status` raises exactly on 4xx/5xx
statuses, which the surrounding `except (TimeoutException, HTTPError)`
catches and retries.  Returns the result paired with the number of GET
attempts performed; the rate-limiter call and the backoff / `min_delay`
sleeps only consume time and do not alter the result. -/
def fetchLoop (st : Settings) (cfg : SourceConfig) (url : String)
    (transport : ℕ → GetOutcome) (headless : Option String) :
    ℕ → ℕ → (Option String × String) × ℕ
  | 0, k => ((none, url), k)
  | n + 1, k =>
    match transport k with
    | GetOutcome.fail =>
      if 0 < n then fetchLoop st cfg url transport headless n (k + 1)
      else ((none, url), k + 1)
    | GetOutcome.resp status text finalUrl =>
      if requiresHeadless status text then
        if canUseHeadless st cfg then
          match headless with
          | some html => ((some html, url), k + 1)
          | none => ((none, url), k + 1)
        else ((none, url), k + 1)
      else if 400 ≤ status ∧ status < 600 then
        if 0 < n then fetchLoop st cfg url transport headless n (k + 1)
        else ((none, url), k + 1)
      else ((some text, finalUrl), k + 1)

/-- `_fetch_with_retry` (lines 282-325):
`attempts = max(1, source_config.retry.attempts + 1)`. -/
def fetchWithRetry (st : Settings) (cfg : SourceConfig) (url : String)
    (transport : ℕ → GetOutcome) (headless : Option String) :
    (Option String × String) × ℕ :=
  fetchLoop st cfg url transport headless (max 1 (cfg.retry.attempts + 1)) 0

/-- An attempt outcome that `_fetch_with_retry` treats as a retryable
HTTP/timeout error: the transport raised, or the response carries an
HTTP error status (4xx/5xx) without tripping the edge-protection
check. -/
def transientFail : GetOutcome → Prop
  | GetOutcome.fail => True
  | GetOutcome.resp status text _ =>
    (400 ≤ status ∧ status < 600) ∧ requiresHeadless status text = false

theorem fetchLoop_transient (st : Settings) (cfg : SourceConfig) (url : String)
    (transport : ℕ → GetOutcome) (headless : Option String)
    (ht : ∀ k, transientFail (transport k)) :
    ∀ n k, 0 < n →
      fetchLoop st cfg url transport headless n k = ((none, url), k + n) := by
  intro n
  induction n with
  | zero => intro k h; omega
  | succ m ih =>
    intro k _
    have hk := ht k
    rcases htr : transport k with _ | ⟨status, text, finalUrl⟩
    · simp only [fetchLoop, htr]
      by_cases hm : 0 < m
      · rw [if_pos hm, ih (k + 1) hm]
        congr 1
        omega
      · rw [if_neg hm]
        have : m = 0 := by omega
        subst this
        rfl
    · rw [htr] at hk
      rcases hk with ⟨hstat, hhd⟩
      simp only [fetchLoop, htr]
      rw [hhd]
      simp only [Bool.false_eq_true, if_false]
      rw [if_pos hstat]
      by_cases hm : 0 < m
      · rw [if_pos hm, ih (k + 1) hm]
        congr 1
        omega
      · rw [if_neg hm]
        have : m = 0 := by omega
        subst this
        rfl

/-- A concrete source configuration with `attempts = 2`, used by the
fetch-retry witnesses. -/
def cfgA : SourceConfig :=
  ⟨"s1", ["http://e.com/blog"], "blog", none, ⟨2, 2⟩, ⟨0, 0⟩, 0, none, false, false, none⟩

/-- Settings with headless rendering and snapshots disabled. -/
def stA : Settings := ⟨false, false⟩

/-- A transport whose every attempt yields an HTTP 404 response. -/
def tr404 : ℕ → GetOutcome := fun _ => GetOutcome.resp 404 "" "http://e.com/blog"

/-- A transport whose every attempt raises a transport-level error. -/
def trFail : ℕ → GetOutcome := fun _ => GetOutcome.fail

/-- C2: for every url and every source configuration whose transport
fails on every attempt with a transient HTTP/timeout error,
`_fetch_with_retry` performs exactly `retry.attempts + 1` attempts and
then returns `(None, url)`. -/
theorem C2_fetch_retry_exhausts_attempts (st : Settings) (cfg : SourceConfig)
    (url : String) (transport : ℕ → GetOutcome) (headless : Option String)
    (ht : ∀ k, transientFail (transport k)) :
    fetchWithRetry st cfg url transport headless =
      ((none, url), cfg.retry.attempts + 1) := by
  unfold fetchWithRetry
  rw [show max 1 (cfg.retry.attempts + 1) = cfg.retry.attempts + 1 by omega]
  rw [fetchLoop_transient st cfg url transport headless ht (cfg.retry.attempts + 1) 0
    (by omega)]
  simp

theorem C2_fetch_retry_exhausts_attempts_witness :
    (∀ k, transientFail (trFail k)) ∧
    fetchWithRetry stA cfgA "http://e.com/blog" trFail none =
      ((none, "http://e.com/blog"), 3) :=
  ⟨fun _ => trivial,
    C2_fetch_retry_exhausts_attempts stA cfgA "http://e.com/blog"
      trFail none (fun _ => trivial)⟩

/-- C3 counterexample: with `attempts = 2`, a transport answering HTTP
404 on every attempt makes `_fetch_with_retry` perform 3 attempts, not
1: a 404 on the first attempt does NOT abort the retry loop.  (404 leads
to `response.raise_for_status()` raising `httpx.HTTPStatusError`, which
the `except (httpx.TimeoutException, httpx.HTTPError)` clause at
line 316 catches and retries like any transient error.) -/
theorem C3_counterexample :
    (fetchWithRetry stA cfgA "http://e.com/blog" tr404 none).2 = 3 ∧
    (fetchWithRetry stA cfgA "http://e.com/blog" tr404 none).2 ≠ 1 := by
  constructor
  · decide
  · decide

/-- C3 amended: `_fetch_with_retry` treats an HTTP 404 like any other
retryable HTTP error: with a transport answering 404 (challenge-free
body) on every attempt it performs the full `retry.attempts + 1` attempt
budget and then returns `(None, url)` — there is no immediate abort on
404.  (Only the heuristic `scrape_company_blog` path of the second
class, which performs a single GET per candidate URL, skips a 404
without further attempts.) -/
theorem C3_fetch_404_is_retried (st : Settings) (cfg : SourceConfig)
    (url : String) (transport : ℕ → GetOutcome) (headless : Option String)
    (ht : ∀ k, ∃ text finalUrl, transport k = GetOutcome.resp 404 text finalUrl ∧
      requiresHeadless 404 text = false) :
    fetchWithRetry st cfg url transport headless =
      ((none, url), cfg.retry.attempts + 1) := by
  have htr : ∀ k, transientFail (transport k) := by
    intro k
    obtain ⟨text, finalUrl, heq, hh⟩ := ht k
    rw [heq]
    exact ⟨⟨by omega, by omega⟩, hh⟩
  unfold fetchWithRetry
  rw [show max 1 (cfg.retry.attempts + 1) = cfg.retry.attempts + 1 by omega]
  rw [fetchLoop_transient st cfg url transport headless htr (cfg.retry.attempts + 1) 0
    (by omega)]
  simp

theorem C3_fetch_404_is_retried_witness :
    (∀ k, ∃ text finalUrl, tr404 k = GetOutcome.resp 404 text finalUrl ∧
      requiresHeadless 404 text = false) ∧
    fetchWithRetry stA cfgA "http://e.com/blog" tr404 none =
      ((none, "http://e.com/blog"), 3) :=
  ⟨fun _ => ⟨"", "http://e.com/blog", rfl, by decide⟩,
    C3_fetch_404_is_retried stA cfgA "http://e.com/blog" tr404 none
      (fun _ => ⟨"", "http://e.com/blog", rfl, by decide⟩)⟩

/-! ## Category classifier (`_infer_category`, V1 lines 443-465) -/

/-- The fixed category enumeration.  Member names follow the
`newscategory` enum of migration `0001_initial_schema.py`; the missing
`app/models/news.py` attaches the string `.value`s, so the constructors
stand for those values here. -/
inductive NewsCategory where
  | product_update
  | pricing_change
  | strategic_announcement
  | technical_update
  | funding_news
  | research_paper
  | community_event
  | partnership
  | acquisition
  | integration
  | security_update
  | api_update
  | model_release
  | performance_improvement
  | feature_deprecation
deriving Repr, DecidableEq

/-- The keyword table of `_infer_category` (V1, lines 445-461), in its
fixed priority order. -/
def categoryKeywords : List (List String × NewsCategory) :=
  [(["price", "pricing", "plan", "billing"], NewsCategory.pricing_change),
   (["funding", "seed", "series a", "series b", "investment"], NewsCategory.funding_news),
   (["release", "launched", "launch", "introducing"], NewsCategory.product_update),
   (["security", "vulnerability", "patch", "cve"], NewsCategory.security_update),
   (["api", "sdk"], NewsCategory.api_update),
   (["integration", "integrates with"], NewsCategory.integration),
   (["deprecated", "deprecation", "sunset"], NewsCategory.feature_deprecation),
   (["acquires", "acquisition", "merger"], NewsCategory.acquisition),
   (["partner", "partnership"], NewsCategory.partnership),
   (["model", "gpt", "llama"], NewsCategory.model_release),
   (["performance", "faster", "improvement"], NewsCategory.performance_improvement),
   (["paper", "arxiv", "research"], NewsCategory.research_paper),
   (["webinar", "event", "conference", "meetup"], NewsCategory.community_event),
   (["strategy", "vision", "roadmap"], NewsCategory.strategic_announcement),
   (["technical", "architecture", "infra", "infrastructure"], NewsCategory.technical_update)]

/-- `_infer_category(title)` (V1, lines 443-465): lowercase the title,
walk the table in order, return the first category one of whose
keywords occurs in the lowered title; `None` when nothing matches. -/
def inferCategory (title : String) : Option NewsCategory :=
  categoryKeywords.findSome? fun kc =>
    if kc.1.any (fun kw => pyContains (pyLower title) kw) then some kc.2 else none

/-- The caller-side default of `_scrape_source` (line 265):
`inferred_category or NewsCategory.PRODUCT_UPDATE.value`. -/
def categoryOrDefault (c : Option NewsCategory) : NewsCategory :=
  c.getD NewsCategory.product_update

/-- C7: a title containing (case-insensitively) both a pricing keyword
and a launch/release keyword classifies as the pricing category — the
table is walked in a fixed order with the pricing row first, so the
first match wins; and a title matching no keyword at all yields `None`,
which the caller replaces with the default `PRODUCT_UPDATE` category. -/
theorem C7_category_priority (title : String) :
    (((∃ kw ∈ ["price", "pricing", "plan", "billing"],
        pyContains (pyLower title) kw = true) ∧
      (∃ kw ∈ ["release", "launched", "launch", "introducing"],
        pyContains (pyLower title) kw = true)) →
      inferCategory title = some NewsCategory.pricing_change) ∧
    ((∀ row ∈ categoryKeywords, ∀ kw ∈ row.1, pyContains (pyLower title) kw = false) →
      inferCategory title = none ∧
        categoryOrDefault (inferCategory title) = NewsCategory.product_update) := by
  constructor
  · rintro ⟨⟨kw, hkw, hc⟩, -⟩
    have hany : (["price", "pricing", "plan", "billing"].any
        fun kw => pyContains (pyLower title) kw) = true :=
      List.any_eq_true.mpr ⟨kw, hkw, hc⟩
    unfold inferCategory categoryKeywords
    rw [List.findSome?_cons]
    simp only [hany, if_true]
  · intro h
    have hnone : inferCategory title = none := by
      unfold inferCategory
      rw [List.findSome?_eq_none_iff]
      intro row hrow
      have : (row.1.any fun kw => pyContains (pyLower title) kw) = false := by
        rw [List.any_eq_false]
        intro kw hkw
        simp [h row hrow kw hkw]
      simp [this]
    exact ⟨hnone, by rw [hnone]; rfl⟩

theorem C7_category_priority_witness :
    ((∃ kw ∈ ["price", "pricing", "plan", "billing"],
        pyContains (pyLower "New Pricing, and a Launch") kw = true) ∧
      (∃ kw ∈ ["release", "launched", "launch", "introducing"],
        pyContains (pyLower "New Pricing, and a Launch") kw = true) ∧
      inferCategory "New Pricing, and a Launch" = some NewsCategory.pricing_change) ∧
    ((∀ row ∈ categoryKeywords, ∀ kw ∈ row.1,
        pyContains (pyLower "hello world") kw = false) ∧
      inferCategory "hello world" = none ∧
      categoryOrDefault (inferCategory "hello world") = NewsCategory.product_update) :=
  ⟨⟨⟨"pricing", by decide, by decide⟩, ⟨"launch", by decide, by decide⟩,
    (C7_category_priority "New Pricing, and a Launch").1
      ⟨⟨"pricing", by decide, by decide⟩, ⟨"launch", by decide, by decide⟩⟩⟩,
   ⟨by decide,
    (C7_category_priority "hello world").2 (by decide)⟩⟩

/-! ## URL helpers (`urllib.parse`, simplified executable model) -/

/-- The suffix after the first occurrence of `marker`; `none` when
`marker` does not occur. -/
def afterMarker (marker : List Char) : List Char → Option (List Char)
  | [] => if marker.isEmpty then some [] else none
  | c :: t =>
    if marker.isPrefixOf (c :: t) then some ((c :: t).drop marker.length)
    else afterMarker marker t

/-- The prefix before the first occurrence of `marker`; `none` when
`marker` does not occur. -/
def beforeMarker (marker : List Char) : List Char → Option (List Char)
  | [] => if marker.isEmpty then some [] else none
  | c :: t =>
    if marker.isPrefixOf (c :: t) then some []
    else (beforeMarker marker t).map fun r => c :: r

/-- `urlparse(u).netloc`, simplified to the URL shapes the scraper
builds: the authority after `"://"` up to the next `/`, `?` or `#`;
empty for URLs without `"://"` (relative paths etc.). -/
def netlocOf (u : String) : String :=
  match afterMarker "://".data u.data with
  | none => ""
  | some rest => ⟨rest.takeWhile fun c => !(c = '/' || c = '?' || c = '#')⟩

/-- `urlparse(u).scheme` for the absolute URLs handled here: the
characters before the first `"://"` (empty otherwise). -/
def schemeOf (u : String) : String :=
  match beforeMarker "://".data u.data with
  | none => ""
  | some pre => ⟨pre⟩

/-- `urllib.parse.urljoin(base, href)`, simplified to the href shapes
the scraper meets: absolute (`scheme://…`) hrefs are returned as is,
root-relative (`/…`) hrefs are joined onto the base's scheme and
authority, and other hrefs replace the base's last path segment. -/
def urljoin (base href : String) : String :=
  if (afterMarker "://".data href.data).isSome then href
  else if href.data.head? = some '/' then
    schemeOf base ++ "://" ++ netlocOf base ++ href
  else
    ⟨(base.data.reverse.dropWhile fun c => c ≠ '/').reverse⟩ ++ href

/-! ## `_looks_like_article` and the extraction data model -/

/-- Extensions of non-document assets (line 468). -/
def assetExts : List String :=
  [".jpg", ".jpeg", ".png", ".gif", ".pdf", ".zip", ".mp4", ".mp3", ".svg"]

/-- Known article-path patterns (lines 474-488). -/
def articlePatterns : List String :=
  ["/blog/", "/blogs/", "/news/", "/post/", "/posts/", "/article/", "/articles/",
   "/update/", "/updates/", "/insight/", "/insights/", "/press/", "/press-release/"]

/-- `_looks_like_article(full_url, base_url)` (V1 lines 467-489; the
same checks appear inline in the second class's `_extract_articles`,
lines 626-637): reject asset extensions; reject when the link has a
non-empty authority of which the base authority is not a substring
(Python `base_domain not in link_domain`); finally require one of the
known article-path patterns. -/
def looksLikeArticle (fullUrl baseUrl : String) : Bool :=
  if assetExts.any (fun ext => pyContains (pyLower fullUrl) ext) then false
  else if decide (netlocOf fullUrl ≠ "") &&
      !(pyContains (netlocOf fullUrl) (netlocOf baseUrl)) then false
  else articlePatterns.any fun pat => pyContains (pyLower fullUrl) pat

/-- An anchor element as the scraper reads it: the `href` attribute
(empty string when absent, as `element.get("href", "")` yields), the
element's own `get_text(strip=True)` and the parent's, when a parent
exists.  The text values are opaque parser outputs and hence data. -/
structure Element where
  href : String
  text : String
  parentText : Option String
deriving Repr, DecidableEq

/-- A parsed document (`BeautifulSoup(html, "html.parser")`), abstracted
to the queries the scraper performs: the element list each CSS selector
matches (`none` models `soup.select` raising, which both classes catch
and skip), all anchors with an href (`soup.find_all("a", href=True)`),
and each `<script>` tag's string body (`none` models `script.string`
being `None`). -/
structure Soup where
  select : String → Option (List Element)
  anchors : List Element
  scripts : List (Option String)

/-! ## More Python string helpers -/

/-- Python whitespace class (`\s` / `str.strip()` defaults). -/
def isPyWhitespace (c : Char) : Bool :=
  c = ' ' || c = '\t' || c = '\n' || c = '\r' || c = '\x0b' || c = '\x0c'

/-- `str.replace(old, new)`: non-overlapping, left to right. -/
def replaceList (old new : List Char) : ℕ → List Char → List Char
  | 0, cs => cs
  | _ + 1, [] => []
  | fuel + 1, c :: t =>
    if (!old.isEmpty) && old.isPrefixOf (c :: t) then
      new ++ replaceList old new fuel ((c :: t).drop old.length)
    else c :: replaceList old new fuel t

def pyReplace (s old new : String) : String :=
  ⟨replaceList old.data new.data s.data.length s.data⟩

/-- `str.strip()`. -/
def pyStrip (s : String) : String :=
  ⟨((s.data.dropWhile isPyWhitespace).reverse.dropWhile isPyWhitespace).reverse⟩

/-- `str.title()`: a letter following a non-letter is uppercased, any
other letter lowercased. -/
def titleChars : Bool → List Char → List Char
  | _, [] => []
  | prevAlpha, c :: t =>
    if c.isAlpha then (if prevAlpha then c.toLower else c.toUpper) :: titleChars true t
    else c :: titleChars false t

def pyTitle (s : String) : String := ⟨titleChars false s.data⟩

/-- `s.split(sep)[-1]`: the segment after the last separator. -/
def lastSegment (s : String) (sep : Char) : String :=
  ⟨(s.data.reverse.takeWhile fun c => c ≠ sep).reverse⟩

/-! ## Executable model of the embedded-JSON regex scans

`_extract_from_nextjs_scripts` runs `re.finditer` with the pattern
`(?:\\?["\'])href(?:\\?["\']):\s*(?:\\?["\'])(/blogs?/[^…]+)(?:\\?["\'])`
over each script body.  The scanners below implement these patterns
directly: the pattern pieces are deterministic here (the capture class
excludes quotes and backslash, so regex backtracking can never turn a
failed match into a successful one), and `re.finditer` resumes after
each match while `re.search` slides one position at a time — both
reproduced below. -/

def isQuoteCh (c : Char) : Bool := c = '"' || c = '\''

def isHexCh (c : Char) : Bool :=
  c.isDigit || ('a' ≤ c && c ≤ 'f') || ('A' ≤ c && c ≤ 'F')

/-- The V1 capture class `[^\\"\'\s]`. -/
def capClassV1 (c : Char) : Bool := !(c = '\\' || isQuoteCh c || isPyWhitespace c)

/-- `(?:\\?["\'])`: an optional backslash followed by a quote.  Returns
the consumed length and the rest. -/
def matchOptQuote : List Char → Option (ℕ × List Char)
  | [] => none
  | '\\' :: rest =>
    match rest with
    | c :: rest2 => if isQuoteCh c then some (2, rest2) else none
    | [] => none
  | c :: rest => if isQuoteCh c then some (1, rest) else none

/-- Case-sensitive literal match; returns the rest. -/
def matchLit : List Char → List Char → Option (List Char)
  | [], cs => some cs
  | _ :: _, [] => none
  | a :: ls, c :: cs => if a = c then matchLit ls cs else none

/-- Case-insensitive literal match (`re.IGNORECASE`); returns the rest. -/
def matchCI : List Char → List Char → Option (List Char)
  | [], cs => some cs
  | _ :: _, [] => none
  | a :: ls, c :: cs => if a.toLower = c.toLower then matchCI ls cs else none

/-- The capture group `/blogs?/[^…]+`: the maximal capture-class run
must extend a `/blog/` or `/blogs/` prefix by at least one character. -/
def blogPathOk (cap : List Char) : Bool :=
  ("/blog/".data.isPrefixOf cap && decide (6 < cap.length)) ||
  ("/blogs/".data.isPrefixOf cap && decide (7 < cap.length))

/-- One span matched by the href pattern: start offset, end offset
(exclusive) and the captured path group. -/
structure HrefMatch where
  start : ℕ
  stop : ℕ
  path : String
deriving Repr, DecidableEq

/-- Try the full href pattern at the head of `cs`; on success return
the full match length and the captured path. -/
def matchHrefAt (capClass : Char → Bool) (cs : List Char) : Option (ℕ × String) :=
  match matchOptQuote cs with
  | none => none
  | some (n1, r1) =>
    match matchLit "href".data r1 with
    | none => none
    | some r2 =>
      match matchOptQuote r2 with
      | none => none
      | some (n3, r3) =>
        match r3 with
        | ':' :: r4 =>
          let spn := (r4.takeWhile isPyWhitespace).length
          let r5 := r4.drop spn
          match matchOptQuote r5 with
          | none => none
          | some (n5, r6) =>
            let cap := r6.takeWhile capClass
            let r7 := r6.drop cap.length
            if blogPathOk cap then
              match matchOptQuote r7 with
              | none => none
              | some (n7, _) =>
                some (n1 + 4 + n3 + 1 + spn + n5 + cap.length + n7, ⟨cap⟩)
            else none
        | _ => none

/-- `re.finditer`: try `matchAt` at each position left to right,
resuming after the end of every match. -/
def scanMatches (matchAt : List Char → Option (ℕ × String)) :
    ℕ → List Char → ℕ → List HrefMatch
  | 0, _, _ => []
  | _ + 1, [], _ => []
  | fuel + 1, c :: t, pos =>
    match matchAt (c :: t) with
    | some (len, path) =>
      ⟨pos, pos + len, path⟩ :: scanMatches matchAt fuel ((c :: t).drop len) (pos + len)
    | none => scanMatches matchAt fuel t (pos + 1)

def findHrefMatches (capClass : Char → Bool) (s : String) : List HrefMatch :=
  scanMatches (matchHrefAt capClass) s.data.length s.data 0

/-- The repetition `(?:\\u[0-9a-fA-F]{4}|[^"\\]){n,}` followed by a
closing quote: consume units, then require `minReps` of them at the
closing `"`.  Returns the raw captured characters. -/
def titleReps (minReps : ℕ) : ℕ → List Char → List Char → ℕ → Option (List Char)
  | 0, _, _, _ => none
  | _ + 1, [], _, _ => none
  | _ + 1, '"' :: _, raw, reps => if minReps ≤ reps then some raw.reverse else none
  | fuel + 1, '\\' :: rest, raw, reps =>
    match rest with
    | 'u' :: a :: b :: c :: d :: rest2 =>
      if isHexCh a && isHexCh b && isHexCh c && isHexCh d then
        titleReps minReps fuel rest2 (d :: c :: b :: a :: 'u' :: '\\' :: raw) (reps + 1)
      else none
    | _ => none
  | fuel + 1, c :: rest, raw, reps => titleReps minReps fuel rest (c :: raw) (reps + 1)

/-- `re.search` for `"key":"…"` (case-insensitive, ≥ 6 repetition
units): slide over the text one position at a time and return the first
successful capture. -/
def searchTitleKey (key : List Char) : ℕ → List Char → Option String
  | 0, _ => none
  | _ + 1, [] => none
  | fuel + 1, c :: t =>
    match matchCI ('"' :: (key ++ "\":\"".data)) (c :: t) with
    | some rest =>
      match titleReps 6 rest.length rest [] 0 with
      | some raw => some ⟨raw⟩
      | none => searchTitleKey key fuel t
    | none => searchTitleKey key fuel t

/-! ## V1 extraction (`_extract_articles`, `_extract_from_nextjs_scripts`,
`_find_title_near_match`; lines 327-417) -/

namespace V1

/-- `_find_title_near_match` (lines 391-417): search a window of 500
characters before to 2000 after the href match for a `"title":"…"` or
`"children":"…"` string; clean the capture, decode escapes
(`bytes(candidate, "utf-8").decode("unicode_escape")` inside
try/except — the total oracle `decodeEscapes` models it), keep it when
still ≥ 6 characters; otherwise humanize the URL's trailing path
segment (hyphens/underscores to spaces, title-case). -/
def findTitleNearMatch (decodeEscapes : String → String) (scriptText : String)
    (m : HrefMatch) : Option String :=
  let endPos := min scriptText.length (m.stop + 2000)
  let context := pySlice (m.start - 500) endPos scriptText
  let tryKey := fun (key : String) =>
    match searchTitleKey key.data context.data.length context.data with
    | none => none
    | some candidate =>
      let c1 := pyStrip (pyReplace (pyReplace candidate "\\n" " ") "\\t" " ")
      let c2 := decodeEscapes c1
      if 6 ≤ c2.length then some (pyTake 500 c2) else none
  match tryKey "title" with
  | some t => some t
  | none =>
    match tryKey "children" with
    | some t => some t
    | none =>
      let slug := lastSegment m.path '/'
      if slug ≠ "" then
        some (pyTake 500 (pyTitle (pyReplace (pyReplace slug "-" " ") "_" " ")))
      else none

/-- Insertion into the ordered candidate map only when the URL is not
yet a key (`if full_url not in articles` / `found.setdefault`). -/
def insertCandidate (acc : List (String × String)) (url title : String) :
    List (String × String) :=
  if acc.any (fun kv => kv.1 = url) then acc else acc ++ [(url, title)]

/-- `_extract_from_nextjs_scripts` (lines 369-389): scan each script
body for href matches, filter through `_looks_like_article`, attach a
title from `_find_title_near_match`. -/
def extractFromNextjsScripts (soup : Soup) (baseUrl : String)
    (decodeEscapes : String → String) : List (String × String) :=
  soup.scripts.foldl
    (fun found script =>
      match script with
      | none => found
      | some scriptText =>
        (findHrefMatches capClassV1 scriptText).foldl
          (fun fnd m =>
            let fullUrl := urljoin baseUrl m.path
            if looksLikeArticle fullUrl baseUrl then
              match findTitleNearMatch decodeEscapes scriptText m with
              | some title => insertCandidate fnd fullUrl title
              | none => fnd
            else fnd)
          found)
    []

/-- The per-element body of the selector loop (lines 341-359): derive a
title from the element or, when shorter than 6 characters, from its
parent (truncated to 500); resolve the href, filter through
`_looks_like_article`; the stored title is truncated to 500. -/
def candidateOfElement (baseUrl : String) (e : Element) : Option (String × String) :=
  if e.href = "" then none
  else
    let title0 := e.text
    let title :=
      if title0 = "" ∨ title0.length < 6 then
        match e.parentText with
        | some pt => pyTake 500 pt
        | none => title0
      else title0
    if title = "" ∨ title.length < 6 then none
    else
      let fullUrl := urljoin baseUrl e.href
      if looksLikeArticle fullUrl baseUrl then some (fullUrl, pyTake 500 title)
      else none

/-- `_extract_articles(soup, base_url, selectors)` (lines 327-367):
fold the selectors into an ordered URL-keyed map (first seen wins);
when no selector produced anything, merge in the Next.js script
fallback. -/
def extractArticles (soup : Soup) (baseUrl : String) (selectors : List String)
    (decodeEscapes : String → String) : List (String × String) :=
  let selected := selectors.foldl
    (fun acc sel =>
      match soup.select sel with
      | none => acc
      | some elems =>
        elems.foldl
          (fun acc2 e =>
            match candidateOfElement baseUrl e with
            | some (u, t) => insertCandidate acc2 u t
            | none => acc2)
          acc)
    []
  if selected.isEmpty then
    (extractFromNextjsScripts soup baseUrl decodeEscapes).foldl
      (fun acc ut => insertCandidate acc ut.1 ut.2) selected
  else selected

end V1

/-- `DEFAULT_ARTICLE_SELECTORS` (lines 28-56). -/
def defaultArticleSelectors : List String :=
  ["article a", "article h2 a", "article h3 a", "div.post a", "div.blog-post a",
   "div.news-item a", "div.card a", "div.entry a", "li.post a", "li.article a",
   "h2 a", "h3 a", "h4 a", "a[href*=\"/blog/\"]", "a[href*=\"/news/\"]",
   "a[href*=\"/post/\"]", "a[href*=\"/article/\"]", "a[href*=\"/posts/\"]",
   ".article-link", ".post-link", ".news-link", ".entry-title a", ".post-title a",
   "[class*=\"post\"] a", "[class*=\"article\"] a", "[class*=\"blog\"] a",
   "[class*=\"news\"] a"]

/-! ## V2 extraction (`_extract_articles`,
`_extract_from_nextjs_scripts` of the second class, lines 559-832) -/

namespace V2

/-- The V2 capture class `[^"\'\\]` of the href pattern (line 716):
excludes quotes and backslash but, unlike V1, not whitespace. -/
def capClassV2 (c : Char) : Bool := !(isQuoteCh c || c = '\\')

/-- The shorter article-pattern list of the anchor fallback
(line 660). -/
def anchorPatterns : List String :=
  ["/blog/", "/blogs/", "/news/", "/post/", "/posts/", "/article/"]

/-- The shorter asset-extension list of the anchor fallback and of
Method 2 (lines 665, 805). -/
def anchorAssetExts : List String := [".jpg", ".jpeg", ".png", ".gif", ".pdf"]

/-- The title derivation of the selector loop (lines 603-612): the
element's own text, or — when empty or shorter than 10 — the parent's
text truncated to 500 and re-checked against the 10 minimum; an element
without parent is skipped. -/
def candidateV2 (baseUrl : String) (e : Element) : Option (String × String) :=
  let titleRes : Option String :=
    if e.text = "" ∨ e.text.length < 10 then
      match e.parentText with
      | some pt =>
        let t2 := pyTake 500 pt
        if t2.length < 10 then none else some t2
      | none => none
    else some e.text
  match titleRes with
  | none => none
  | some title =>
    if e.href = "" then none
    else some (urljoin baseUrl e.href, title)

/-- The selector stage of V2 `_extract_articles` (lines 596-645); the
asset/domain/pattern filters coincide with `looksLikeArticle`.  The
appended title is truncated to 500 (line 641). -/
def selectorStage (soup : Soup) (baseUrl : String) : List (String × String) :=
  defaultArticleSelectors.foldl
    (fun acc sel =>
      match soup.select sel with
      | none => acc
      | some elems =>
        elems.foldl
          (fun acc2 e =>
            match candidateV2 baseUrl e with
            | none => acc2
            | some (u, t) =>
              if acc2.any (fun kv => kv.1 = u) then acc2
              else if looksLikeArticle u baseUrl then acc2 ++ [(u, pyTake 500 t)]
              else acc2)
          acc)
    []

/-- The anchor fallback (lines 649-682): all `<a href>` elements whose
resolved URL matches a short article-pattern list, deduplicated against
the URLs already collected, filtered by the short asset list and the
domain check, with a ≥ 10 character own-text title. -/
def anchorStage (soup : Soup) (baseUrl : String) (acc0 : List (String × String)) :
    List (String × String) :=
  soup.anchors.foldl
    (fun acc link =>
      if link.href = "" then acc
      else
        let fullUrl := urljoin baseUrl link.href
        if anchorPatterns.any (fun pat => pyContains (pyLower fullUrl) pat) then
          if acc.any (fun kv => kv.1 = fullUrl) then acc
          else if anchorAssetExts.any (fun ext => pyContains (pyLower fullUrl) ext) then acc
          else if decide (netlocOf fullUrl ≠ "") &&
              !(pyContains (netlocOf fullUrl) (netlocOf baseUrl)) then acc
          else if link.text ≠ "" ∧ 10 ≤ link.text.length then
            acc ++ [(fullUrl, pyTake 500 link.text)]
          else acc
        else acc)
    acc0

/-- Humanize a trailing path segment (lines 779-780 and 815-816):
`slug.replace('-', ' ').replace('_', ' ').title()`. -/
def slugTitle (path : String) : String :=
  pyTitle (pyReplace (pyReplace (lastSegment path '/') "-" " ") "_" " ")

/-- Method 2's URL pattern
`(?:\\?["\'])(/blogs?/[a-zA-Z0-9\-]+)(?:\\?["\'])` (line 794). -/
def alnumHyphen (c : Char) : Bool := c.isAlpha || c.isDigit || c = '-'

def matchUrlAt (cs : List Char) : Option (ℕ × String) :=
  match matchOptQuote cs with
  | none => none
  | some (n1, r1) =>
    match matchLit "/blog".data r1 with
    | none => none
    | some r2 =>
      match r2 with
      | 's' :: '/' :: r3 =>
        let run := r3.takeWhile alnumHyphen
        if run.isEmpty then none
        else
          match matchOptQuote (r3.drop run.length) with
          | none => none
          | some (n7, _) =>
            some (n1 + 5 + 2 + run.length + n7, ⟨"/blogs/".data ++ run⟩)
      | '/' :: r3 =>
        let run := r3.takeWhile alnumHyphen
        if run.isEmpty then none
        else
          match matchOptQuote (r3.drop run.length) with
          | none => none
          | some (n7, _) =>
            some (n1 + 5 + 1 + run.length + n7, ⟨"/blog/".data ++ run⟩)
      | _ => none

def findUrlMatches (s : String) : List HrefMatch :=
  scanMatches matchUrlAt s.data.length s.data 0

/-- V2 `_extract_from_nextjs_scripts` (lines 693-832).  The six-pattern
title search of lines 745-776 (escaped/unescaped `className`, `title`
and `children` regexes, the double decode, the ≥ 10 length check and
the `postTitle`/`articleTitle` context gate) is the oracle
`titleSearch` applied to the context window around each match; the slug
fallback, the candidate filters and the truncation to 500 at append are
concrete. -/
def nextjsStage (soup : Soup) (baseUrl : String)
    (titleSearch : String → Option String) : List (String × String) :=
  soup.scripts.foldl
    (fun articles script =>
      match script with
      | none => articles
      | some scriptText =>
        let afterM1 := (findHrefMatches capClassV2 scriptText).foldl
          (fun acc m =>
            let fullUrl := urljoin baseUrl m.path
            if acc.any (fun kv => kv.1 = fullUrl) then acc
            else if assetExts.any (fun ext => pyContains (pyLower fullUrl) ext) then acc
            else if decide (netlocOf fullUrl ≠ "") &&
                !(pyContains (netlocOf fullUrl) (netlocOf baseUrl)) then acc
            else
              let endPos := min scriptText.length (m.stop + 2000)
              let context := pySlice (m.start - 500) endPos scriptText
              let title :=
                match titleSearch context with
                | some t => if t = "" ∨ t.length < 10 then slugTitle m.path else t
                | none => slugTitle m.path
              if title ≠ "" ∧ 10 ≤ title.length then
                acc ++ [(fullUrl, pyTake 500 title)]
              else acc)
          articles
        if afterM1.isEmpty then
          (findUrlMatches scriptText).foldl
            (fun acc m =>
              let fullUrl := urljoin baseUrl m.path
              if acc.any (fun kv => kv.1 = fullUrl) then acc
              else if anchorAssetExts.any (fun ext => pyContains (pyLower fullUrl) ext) then acc
              else if decide (netlocOf fullUrl ≠ "") &&
                  !(pyContains (netlocOf fullUrl) (netlocOf baseUrl)) then acc
              else
                let title := slugTitle m.path
                if title ≠ "" ∧ 10 ≤ title.length then
                  acc ++ [(fullUrl, pyTake 500 title)]
                else acc)
            afterM1
        else afterM1)
    []

/-- V2 `_extract_articles` (lines 559-691): selector stage, anchor
fallback when empty, Next.js script fallback when still empty. -/
def extractArticles (soup : Soup) (baseUrl : String)
    (titleSearch : String → Option String) : List (String × String) :=
  let sel := selectorStage soup baseUrl
  let withAnchors := if sel.isEmpty then anchorStage soup baseUrl sel else sel
  if withAnchors.isEmpty then nextjsStage soup baseUrl titleSearch else withAnchors

end V2


/-! ## Concrete documents for the extraction claims -/

/-- The C5 script body: a JSON payload embedding
`"href":"/blog/my-post"` with no title string anywhere near. -/
def jsonC5 : String := "\x7b\"href\":\"/blog/my-post\"\x7d"

/-- A document with no CSS-matchable anchors, no plain anchors, and the
single C5 script. -/
def soupC5 : Soup := ⟨fun _ => some [], [], [some jsonC5]⟩

/-- A listing page with one same-domain and one cross-domain article
anchor. -/
def soupC6 : Soup :=
  ⟨fun s =>
    if s = "article a" then
      some [⟨"/blog/foo", "Same domain post", none⟩,
        ⟨"https://other.com/blog/bar", "Cross domain post", none⟩]
    else some [], [], []⟩

/-- A listing page whose only anchor points at a different domain that
happens to contain the base domain as a substring. -/
def soupEvil : Soup :=
  ⟨fun s =>
    if s = "article a" then
      some [⟨"https://evilacme.com/blog/bar", "Cross domain post", none⟩]
    else some [], [], []⟩

/-- C5: on HTML with no CSS-selector-matchable article anchors but a
script embedding `"href":"/blog/my-post"` and no nearby title string,
the first-class extractor (`V1`, the behavior the spec documents)
returns exactly one candidate titled `"My Post"` (humanized trailing
path segment); the second-class extractor (`V2`) — the definition the
module name is actually bound to, since it shadows the first — discards
the same candidate because the humanized title has 7 < 10 characters,
and returns no candidates at all.  (The escape-decoding oracle of `V1`
is never invoked on this input, so the identity suffices.) -/
theorem C5_fallback_humanized_title (titleSearch : String → Option String)
    (h : ∀ ctx, titleSearch ctx = none) :
    V1.extractArticles soupC5 "https://acme.com/blog" defaultArticleSelectors (fun s => s) =
      [("https://acme.com/blog/my-post", "My Post")] ∧
    V2.extractArticles soupC5 "https://acme.com/blog" titleSearch = [] := by
  constructor
  · decide
  · have heq : titleSearch = fun _ => none := funext h
    rw [heq]
    decide

theorem C5_fallback_humanized_title_witness :
    (∀ ctx, (fun (_ : String) => (none : Option String)) ctx = none) ∧
    (V1.extractArticles soupC5 "https://acme.com/blog" defaultArticleSelectors (fun s => s) =
        [("https://acme.com/blog/my-post", "My Post")] ∧
      V2.extractArticles soupC5 "https://acme.com/blog" (fun _ => none) = []) :=
  ⟨fun _ => rfl, C5_fallback_humanized_title (fun _ => none) (fun _ => rfl)⟩

/-- C6 counterexample: the domain filter is a substring test
(`base_domain not in link_domain`), so a candidate on the distinct
domain `evilacme.com` — cross-domain relative to base `acme.com`, whose
name merely contains `acme.com` — is NOT rejected: extraction returns
it.  This falsifies "every candidate whose resolved URL is cross-domain
relative to base_url is rejected". -/
theorem C6_counterexample :
    netlocOf "https://evilacme.com/blog/bar" ≠ netlocOf "https://acme.com/blog" ∧
    V1.extractArticles soupEvil "https://acme.com/blog" defaultArticleSelectors (fun s => s) =
      [("https://evilacme.com/blog/bar", "Cross domain post")] := by
  constructor
  · decide
  · decide

/-! Helper lemmas: every extracted candidate passed
`_looks_like_article`. -/

theorem foldl_preserve {α β : Type} {P : β → Prop} (l : List α) (f : β → α → β)
    (hf : ∀ b a, a ∈ l → P b → P (f b a)) :
    ∀ (b : β), P b → P (l.foldl f b) := by
  induction l with
  | nil => intro b hb; exact hb
  | cons a t ih =>
    intro b hb
    exact ih (fun b2 a2 ha2 hb2 => hf b2 a2 (List.mem_cons_of_mem a ha2) hb2)
      (f b a) (hf b a (List.mem_cons_self a t) hb)

theorem mem_insertCandidate (acc : List (String × String)) (u t : String)
    (x : String × String) (hx : x ∈ V1.insertCandidate acc u t) :
    x ∈ acc ∨ x = (u, t) := by
  unfold V1.insertCandidate at hx
  split at hx
  · exact Or.inl hx
  · rcases List.mem_append.mp hx with h | h
    · exact Or.inl h
    · exact Or.inr (List.mem_singleton.mp h)

theorem candidateOfElement_spec (baseUrl : String) (e : Element) (u t : String)
    (h : V1.candidateOfElement baseUrl e = some (u, t)) :
    looksLikeArticle u baseUrl = true ∧ t.length ≤ 500 := by
  unfold V1.candidateOfElement at h
  dsimp only at h
  split at h
  · simp at h
  · split at h <;> split at h
    all_goals try split at h
    all_goals
      first
        | (rename_i hlooks
           simp only [Option.some.injEq, Prod.mk.injEq] at h
           exact ⟨h.1 ▸ hlooks, h.2 ▸ pyTake_length_le 500 _⟩)
        | simp at h

theorem findTitleNearMatch_le (dec : String → String) (s : String) (m : HrefMatch)
    (t : String) (h : V1.findTitleNearMatch dec s m = some t) : t.length ≤ 500 := by
  unfold V1.findTitleNearMatch at h
  dsimp only at h
  split at h
  · rename_i t1 heq
    split at heq
    · exact absurd heq (by simp)
    · split at heq
      · simp only [Option.some.injEq] at heq h
        rw [← h, ← heq]
        exact pyTake_length_le 500 _
      · exact absurd heq (by simp)
  · split at h
    · rename_i t1 heq
      split at heq
      · exact absurd heq (by simp)
      · split at heq
        · simp only [Option.some.injEq] at heq h
          rw [← h, ← heq]
          exact pyTake_length_le 500 _
        · exact absurd heq (by simp)
    · split at h
      · simp only [Option.some.injEq] at h
        rw [← h]
        exact pyTake_length_le 500 _
      · exact absurd h (by simp)

/-- Invariant carried through V1 extraction: every collected candidate
passed the article filter and its title is at most 500 characters. -/
def GoodCands (baseUrl : String) (acc : List (String × String)) : Prop :=
  ∀ x ∈ acc, looksLikeArticle x.1 baseUrl = true ∧ x.2.length ≤ 500

theorem extractFromNextjsScripts_good (soup : Soup) (baseUrl : String)
    (dec : String → String) :
    GoodCands baseUrl (V1.extractFromNextjsScripts soup baseUrl dec) := by
  unfold V1.extractFromNextjsScripts
  apply foldl_preserve
  · intro b script _ hb
    cases script with
    | none => exact hb
    | some scriptText =>
      apply foldl_preserve
      · intro fnd m _ hfnd
        dsimp only
        split
        · rename_i hlooks
          split
          · rename_i title heq
            intro x hx
            rcases mem_insertCandidate _ _ _ _ hx with hmem | rfl
            · exact hfnd x hmem
            · exact ⟨hlooks, findTitleNearMatch_le dec scriptText m title heq⟩
          · exact hfnd
        · exact hfnd
      · exact hb
  · intro x hx
    exact absurd hx (List.not_mem_nil x)

theorem extractArticles_good (soup : Soup) (baseUrl : String)
    (selectors : List String) (dec : String → String) :
    GoodCands baseUrl (V1.extractArticles soup baseUrl selectors dec) := by
  unfold V1.extractArticles
  dsimp only
  have hsel : GoodCands baseUrl (selectors.foldl
      (fun acc sel =>
        match soup.select sel with
        | none => acc
        | some elems =>
          elems.foldl
            (fun acc2 e =>
              match V1.candidateOfElement baseUrl e with
              | some (u, t) => V1.insertCandidate acc2 u t
              | none => acc2)
            acc)
      []) := by
    apply foldl_preserve
    · intro b sel _ hb
      cases hs : soup.select sel with
      | none => simpa [hs] using hb
      | some elems =>
        simp only [hs]
        apply foldl_preserve
        · intro acc2 e _ hacc2
          cases hc : V1.candidateOfElement baseUrl e with
          | none => simpa [hc] using hacc2
          | some ut =>
            rcases ut with ⟨u, t⟩
            simp only [hc]
            intro x hx
            rcases mem_insertCandidate _ _ _ _ hx with hmem | rfl
            · exact hacc2 x hmem
            · exact candidateOfElement_spec baseUrl e u t hc
        · exact hb
    · intro x hx
      exact absurd hx (List.not_mem_nil x)
  split
  · apply foldl_preserve
    · intro b ut hmem hb
      intro x hx
      rcases mem_insertCandidate _ _ _ _ hx with hx2 | rfl
      · exact hb x hx2
      · exact extractFromNextjsScripts_good soup baseUrl dec ut hmem
    · exact hsel
  · exact hsel

/-- C6 amended: for the page with both a same-domain `/blog/foo` link
and a cross-domain `https://other.com/blog/bar` link, extraction
returns only the same-domain link; in general a candidate is rejected
whenever its resolved URL has a non-empty authority that does not
contain the base authority as a substring (the code's
`base_domain not in link_domain` test — unrelated domains are rejected,
while subdomains, and any host merely containing the base host, pass);
and every candidate extraction emits has passed this filter. -/
theorem C6_domain_filter (soup : Soup) (baseUrl : String) (selectors : List String)
    (dec : String → String) :
    V1.extractArticles soupC6 "https://acme.com/blog" defaultArticleSelectors (fun s => s) =
      [("https://acme.com/blog/foo", "Same domain post")] ∧
    (∀ fullUrl b, netlocOf fullUrl ≠ "" →
      pyContains (netlocOf fullUrl) (netlocOf b) = false →
      looksLikeArticle fullUrl b = false) ∧
    (∀ x ∈ V1.extractArticles soup baseUrl selectors dec,
      looksLikeArticle x.1 baseUrl = true) := by
  refine ⟨by decide, ?_, ?_⟩
  · intro fullUrl b h1 h2
    unfold looksLikeArticle
    split
    · rfl
    · have hc : (decide (netlocOf fullUrl ≠ "") &&
          !(pyContains (netlocOf fullUrl) (netlocOf b))) = true := by
        simp [h1, h2]
      rw [if_pos hc]
  · intro x hx
    exact (extractArticles_good soup baseUrl selectors dec x hx).1

theorem C6_domain_filter_witness :
    (netlocOf "https://other.com/blog/bar" ≠ "" ∧
      pyContains (netlocOf "https://other.com/blog/bar")
        (netlocOf "https://acme.com/blog") = false ∧
      looksLikeArticle "https://other.com/blog/bar" "https://acme.com/blog" = false) ∧
    (("https://acme.com/blog/foo", "Same domain post") ∈
        V1.extractArticles soupC6 "https://acme.com/blog" defaultArticleSelectors
          (fun s => s) ∧
      looksLikeArticle "https://acme.com/blog/foo" "https://acme.com/blog" = true) :=
  ⟨⟨by decide, by decide,
    (C6_domain_filter soupC6 "https://acme.com/blog" defaultArticleSelectors
      (fun s => s)).2.1 "https://other.com/blog/bar" "https://acme.com/blog"
      (by decide) (by decide)⟩,
   ⟨by decide,
    (C6_domain_filter soupC6 "https://acme.com/blog" defaultArticleSelectors
      (fun s => s)).2.2 ("https://acme.com/blog/foo", "Same domain post") (by decide)⟩⟩

/-! ## Title-length invariants for the V2 extractor -/

/-- Every collected candidate's title is at most 500 characters. -/
def LenOK (acc : List (String × String)) : Prop :=
  ∀ x ∈ acc, x.2.length ≤ 500

theorem goodLen_append (acc : List (String × String)) (u t : String)
    (hb : LenOK acc) : LenOK (acc ++ [(u, pyTake 500 t)]) := by
  intro x hx
  rcases List.mem_append.mp hx with h | h
  · exact hb x h
  · rcases List.mem_singleton.mp h with rfl
    exact pyTake_length_le 500 t

theorem selectorStage_le (soup : Soup) (baseUrl : String) :
    LenOK (V2.selectorStage soup baseUrl) := by
  unfold V2.selectorStage
  apply foldl_preserve
  · intro b sel _ hb
    dsimp only
    split
    · exact hb
    · apply foldl_preserve
      · intro acc2 e _ hacc2
        dsimp only
        split
        · exact hacc2
        · split
          · exact hacc2
          · split
            · exact goodLen_append _ _ _ hacc2
            · exact hacc2
      · exact hb
  · intro x hx
    exact absurd hx (List.not_mem_nil x)

theorem anchorStage_le (soup : Soup) (baseUrl : String) (acc0 : List (String × String))
    (h0 : LenOK acc0) : LenOK (V2.anchorStage soup baseUrl acc0) := by
  unfold V2.anchorStage
  apply foldl_preserve
  · intro b link _ hb
    dsimp only
    split
    · exact hb
    · split
      · split
        · exact hb
        · split
          · exact hb
          · split
            · exact hb
            · split
              · exact goodLen_append _ _ _ hb
              · exact hb
      · exact hb
  · exact h0

theorem nextjsStage_le (soup : Soup) (baseUrl : String)
    (titleSearch : String → Option String) :
    LenOK (V2.nextjsStage soup baseUrl titleSearch) := by
  unfold V2.nextjsStage
  apply foldl_preserve
  · intro b script hmem hb
    dsimp only
    split
    · exact hb
    · rename_i scriptText
      have step1 : ∀ (acc : List (String × String)) (m : HrefMatch),
          m ∈ findHrefMatches V2.capClassV2 scriptText → LenOK acc →
          LenOK ((fun acc m =>
            let fullUrl := urljoin baseUrl m.path
            if acc.any (fun kv => kv.1 = fullUrl) then acc
            else if assetExts.any (fun ext => pyContains (pyLower fullUrl) ext) then acc
            else if decide (netlocOf fullUrl ≠ "") &&
                !(pyContains (netlocOf fullUrl) (netlocOf baseUrl)) then acc
            else
              let endPos := min scriptText.length (m.stop + 2000)
              let context := pySlice (m.start - 500) endPos scriptText
              let title :=
                match titleSearch context with
                | some t => if t = "" ∨ t.length < 10 then V2.slugTitle m.path else t
                | none => V2.slugTitle m.path
              if title ≠ "" ∧ 10 ≤ title.length then
                acc ++ [(fullUrl, pyTake 500 title)]
              else acc) acc m) := by
        intro acc m _ hacc
        dsimp only
        split
        · exact hacc
        · split
          · exact hacc
          · split
            · exact hacc
            · split
              · exact goodLen_append _ _ _ hacc
              · exact hacc
      have step2 : ∀ (acc : List (String × String)) (m : HrefMatch),
          m ∈ V2.findUrlMatches scriptText → LenOK acc →
          LenOK ((fun acc m =>
            let fullUrl := urljoin baseUrl m.path
            if acc.any (fun kv => kv.1 = fullUrl) then acc
            else if V2.anchorAssetExts.any
                (fun ext => pyContains (pyLower fullUrl) ext) then acc
            else if decide (netlocOf fullUrl ≠ "") &&
                !(pyContains (netlocOf fullUrl) (netlocOf baseUrl)) then acc
            else
              let title := V2.slugTitle m.path
              if title ≠ "" ∧ 10 ≤ title.length then
                acc ++ [(fullUrl, pyTake 500 title)]
              else acc) acc m) := by
        intro acc m _ hacc
        dsimp only
        split
        · exact hacc
        · split
          · exact hacc
          · split
            · exact hacc
            · split
              · exact goodLen_append _ _ _ hacc
              · exact hacc
      split
      · exact foldl_preserve _ _ step2 _ (foldl_preserve _ _ step1 b hb)
      · exact foldl_preserve _ _ step1 b hb
  · intro x hx
    exact absurd hx (List.not_mem_nil x)

theorem extractArticlesV2_le (soup : Soup) (baseUrl : String)
    (titleSearch : String → Option String) :
    LenOK (V2.extractArticles soup baseUrl titleSearch) := by
  unfold V2.extractArticles
  dsimp only
  split
  · split
    · exact nextjsStage_le soup baseUrl titleSearch
    · exact anchorStage_le soup baseUrl _ (selectorStage_le soup baseUrl)
  · exact selectorStage_le soup baseUrl


/-- C9: every article candidate produced by extraction — via the CSS
selectors, the anchor fallback, or the embedded-JSON script fallback,
in either class's extractor — has a title of at most 500 characters,
for every document, base URL, selector list and oracle behavior. -/
theorem C9_title_length_bound (soup : Soup) (baseUrl : String) (selectors : List String)
    (dec : String → String) (titleSearch : String → Option String) :
    (∀ x ∈ V1.extractArticles soup baseUrl selectors dec, x.2.length ≤ 500) ∧
    (∀ x ∈ V2.extractArticles soup baseUrl titleSearch, x.2.length ≤ 500) :=
  ⟨fun x hx => (extractArticles_good soup baseUrl selectors dec x hx).2,
   extractArticlesV2_le soup baseUrl titleSearch⟩

theorem C9_title_length_bound_witness :
    (("https://acme.com/blog/foo", "Same domain post") ∈
        V1.extractArticles soupC6 "https://acme.com/blog" defaultArticleSelectors
          (fun s => s) ∧
      ("Same domain post" : String).length ≤ 500) ∧
    (("https://acme.com/blog/foo", "Same domain post") ∈
        V2.extractArticles soupC6 "https://acme.com/blog" (fun _ => none) ∧
      ("Same domain post" : String).length ≤ 500) :=
  ⟨⟨by decide,
    (C9_title_length_bound soupC6 "https://acme.com/blog" defaultArticleSelectors
      (fun s => s) (fun _ => none)).1 ("https://acme.com/blog/foo", "Same domain post")
      (by decide)⟩,
   ⟨by decide,
    (C9_title_length_bound soupC6 "https://acme.com/blog" defaultArticleSelectors
      (fun s => s) (fun _ => none)).2 ("https://acme.com/blog/foo", "Same domain post")
      (by decide)⟩⟩

/-! ## Normalized article records and the two pipelines -/

/-- The normalized article dict built at lines 257-272 (V1) and 949-962
(V2).  `published_at = datetime.now() - timedelta(days=idx)` is a clock
read minus the candidate rank, so the rank is what the record carries
here. -/
structure Item where
  title : String
  content : String
  summary : String
  source_url : String
  source_type : String
  company_name : String
  category : NewsCategory
  topic : Option String
  sentiment : Option String
  priority_score : ℚ
  raw_snapshot_url : Option String
  published_rank : ℕ
deriving Repr, DecidableEq

/-- The record of `_scrape_source` (lines 257-272). -/
def mkItemV1 (companyName : String) (cfg : SourceConfig) (snapPath : Option String)
    (idx : ℕ) (url title : String) : Item :=
  ⟨title, "Article from " ++ companyName ++ ": " ++ title, pyTake 200 title, url,
   cfg.source_type, companyName, categoryOrDefault (inferCategory title),
   none, none, 1 / 2, snapPath, idx⟩

/-- The candidate-emission loop of `_scrape_source` (lines 250-278):
skip URLs already seen in this run, record the rest, stop once
`max_articles` records were accumulated (the check runs after each
append). -/
def emitLoop (companyName : String) (cfg : SourceConfig) (snapPath : Option String)
    (maxArticles : ℕ) :
    List (ℕ × String × String) → List Item → List String → List Item × List String
  | [], items, seen => (items, seen)
  | (idx, url, title) :: rest, items, seen =>
    if url ∈ seen then emitLoop companyName cfg snapPath maxArticles rest items seen
    else
      let items2 := items ++ [mkItemV1 companyName cfg snapPath idx url title]
      let seen2 := seen ++ [url]
      if maxArticles ≤ items2.length then (items2, seen2)
      else emitLoop companyName cfg snapPath maxArticles rest items2 seen2

/-- `source_config.selectors or DEFAULT_ARTICLE_SELECTORS` (line 230):
Python `or` also replaces an empty list. -/
def selectorsOf (cfg : SourceConfig) : List String :=
  match cfg.selectors with
  | some l => if l.isEmpty then defaultArticleSelectors else l
  | none => defaultArticleSelectors

/-- The URL loop of `_scrape_source` (lines 222-280).  The fetch is the
`_fetch_with_retry` model with a per-URL transport oracle; `parse` is
`BeautifulSoup`; `snap` is `_persist_snapshot` (best-effort filesystem
write returning a path or `None`); `if not html: continue` also skips
an empty body. -/
def scrapeSourceUrls (companyName : String) (cfg : SourceConfig) (maxArticles : ℕ)
    (st : Settings) (transport : String → ℕ → GetOutcome) (headless : Option String)
    (parse : String → Soup) (dec : String → String)
    (snap : String → String → Option String) :
    List String → List Item → List String → List Item × List String
  | [], items, seen => (items, seen)
  | url :: rest, items, seen =>
    match (fetchWithRetry st cfg url (transport url) headless).1 with
    | (none, _) =>
      scrapeSourceUrls companyName cfg maxArticles st transport headless parse dec snap
        rest items seen
    | (some html, finalUrl) =>
      if html = "" then
        scrapeSourceUrls companyName cfg maxArticles st transport headless parse dec snap
          rest items seen
      else
        let snapPath := snap finalUrl html
        let articles := V1.extractArticles (parse html) finalUrl (selectorsOf cfg) dec
        if articles.isEmpty then
          scrapeSourceUrls companyName cfg maxArticles st transport headless parse dec snap
            rest items seen
        else
          let res := emitLoop companyName cfg snapPath maxArticles
            (articles.enum.map fun p => (p.1, p.2.1, p.2.2)) items seen
          if maxArticles ≤ res.1.length then res
          else
            scrapeSourceUrls companyName cfg maxArticles st transport headless parse dec snap
              rest res.1 res.2

/-- The per-source loop of V1 `scrape_company_blog` (lines 139-162):
sources processed sequentially, each with
`source_config.max_articles or max_articles` (Python `or`: 0 also falls
back), the run-wide `seen_urls` threaded through. -/
def sourcesLoop (companyName : String) (maxArticles : ℕ) (st : Settings)
    (transport : String → ℕ → GetOutcome) (headless : Option String)
    (parse : String → Soup) (dec : String → String)
    (snap : String → String → Option String) :
    List SourceConfig → List Item → List String → List Item
  | [], items, _ => items
  | cfg :: rest, items, seen =>
    let perLimit :=
      match cfg.max_articles with
      | some n => if n = 0 then maxArticles else n
      | none => maxArticles
    let res := scrapeSourceUrls companyName cfg perLimit st transport headless parse dec snap
      cfg.urls [] seen
    sourcesLoop companyName maxArticles st transport headless parse dec snap
      rest (items ++ res.1) res.2

/-- V1 `scrape_company_blog` (lines 107-168).  `sourceConfigs` is the
result of `config_registry.get_sources` (the registry lives in the
missing `config_loader.py`; per the spec it returns a list and isolates
per-entry failures, so the list is a parameter here). -/
def scrapeCompanyBlogV1 (companyName : String) (maxArticles : ℕ)
    (sourceConfigs : List SourceConfig) (st : Settings)
    (transport : String → ℕ → GetOutcome) (headless : Option String)
    (parse : String → Soup) (dec : String → String)
    (snap : String → String → Option String) : List Item :=
  if sourceConfigs.isEmpty then []
  else sourcesLoop companyName maxArticles st transport headless parse dec snap
    sourceConfigs [] []

/-! ## V2 `scrape_company_blog` (lines 834-984) -/

/-- The keyword table of the V2 category chain (lines 916-945): as V1,
except that the model-release row also lists `release` (unreachable in
practice, since the release row precedes it). -/
def categoryKeywordsV2 : List (List String × NewsCategory) :=
  [(["price", "pricing", "plan", "billing"], NewsCategory.pricing_change),
   (["funding", "seed", "series a", "series b", "investment"], NewsCategory.funding_news),
   (["release", "launched", "launch", "introducing"], NewsCategory.product_update),
   (["security", "vulnerability", "patch", "cve"], NewsCategory.security_update),
   (["api", "sdk"], NewsCategory.api_update),
   (["integration", "integrates with"], NewsCategory.integration),
   (["deprecated", "deprecation", "sunset"], NewsCategory.feature_deprecation),
   (["acquires", "acquisition", "merger"], NewsCategory.acquisition),
   (["partner", "partnership"], NewsCategory.partnership),
   (["model", "gpt", "llama", "release"], NewsCategory.model_release),
   (["performance", "faster", "improvement"], NewsCategory.performance_improvement),
   (["paper", "arxiv", "research"], NewsCategory.research_paper),
   (["webinar", "event", "conference", "meetup"], NewsCategory.community_event),
   (["strategy", "vision", "roadmap"], NewsCategory.strategic_announcement),
   (["technical", "architecture", "infra", "infrastructure"], NewsCategory.technical_update)]

def inferCategoryV2 (title : String) : Option NewsCategory :=
  categoryKeywordsV2.findSome? fun kc =>
    if kc.1.any (fun kw => pyContains (pyLower title) kw) then some kc.2 else none

/-- Source-type detection from the article URL (lines 905-910). -/
def sourceTypeOf (url : String) : String :=
  if pyContains (pyLower url) "/news/" then "news_site"
  else if pyContains (pyLower url) "/press/" then "press_release"
  else "blog"

/-- Python `str.rstrip('/')`. -/
def rstripSlash (s : String) : String :=
  ⟨(s.data.reverse.dropWhile fun c => c = '/').reverse⟩

/-- `_detect_blog_url` (V2, lines 532-557): the fixed candidate path
patterns under the website's scheme and authority. -/
def detectBlogUrls (website : String) : List String :=
  let baseDomain := rstripSlash (schemeOf website ++ "://" ++ netlocOf website)
  [baseDomain ++ "/blog", baseDomain ++ "/blogs", baseDomain ++ "/blog/",
   baseDomain ++ "/blogs/", baseDomain ++ "/news", baseDomain ++ "/news/",
   baseDomain ++ "/insights", baseDomain ++ "/updates", baseDomain ++ "/press",
   baseDomain ++ "/newsroom", baseDomain ++ "/press-releases",
   baseDomain ++ "/company/blog", baseDomain ++ "/company/news",
   baseDomain ++ "/resources/blog", baseDomain ++ "/hub/blog"]

/-- The record of V2 `scrape_company_blog` (lines 949-962). -/
def mkItemV2 (companyName : String) (idx : ℕ) (url title : String) : Item :=
  ⟨title, "Article from " ++ companyName ++ ": " ++ title, pyTake 200 title, url,
   sourceTypeOf url, companyName,
   (inferCategoryV2 title).getD NewsCategory.product_update,
   none, none, 1 / 2, none, idx⟩

/-- The candidate-URL loop of V2 `scrape_company_blog` (lines 866-973):
an HTTP exception (`fetch` returning `Except.error`) or any generic
exception in an iteration is caught by the inner `except` clauses and
the loop continues; a redirect away from a blog/news section, a 404 and
any other non-200 status skip the URL; the first URL yielding articles
wins. -/
def scrapeLoopV2 (companyName : String) (maxArticles : ℕ)
    (fetch : String → Except String (ℕ × String × String))
    (parse : String → Soup) (titleSearch : String → Option String) :
    List String → List Item
  | [] => []
  | blogUrl :: rest =>
    match fetch blogUrl with
    | Except.error _ =>
      scrapeLoopV2 companyName maxArticles fetch parse titleSearch rest
    | Except.ok (status, text, finalUrl) =>
      if finalUrl ≠ blogUrl ∧
          (pyContains (pyLower finalUrl) "/blog" = false ∧
            pyContains (pyLower finalUrl) "/news" = false) ∧
          (pyContains (pyLower blogUrl) "blog" = true ∨
            pyContains (pyLower blogUrl) "news" = true) then
        scrapeLoopV2 companyName maxArticles fetch parse titleSearch rest
      else if status = 404 then
        scrapeLoopV2 companyName maxArticles fetch parse titleSearch rest
      else if status ≠ 200 then
        scrapeLoopV2 companyName maxArticles fetch parse titleSearch rest
      else
        let articles := V2.extractArticles (parse text) finalUrl titleSearch
        if articles.isEmpty then
          scrapeLoopV2 companyName maxArticles fetch parse titleSearch rest
        else
          let items := (articles.take maxArticles).enum.map fun p =>
            mkItemV2 companyName p.1 p.2.1 p.2.2
          if items.isEmpty then
            scrapeLoopV2 companyName maxArticles fetch parse titleSearch rest
          else items

/-- V2 `scrape_company_blog` (lines 834-984), the definition the module
name is bound to.  The outer try/except maps any escaped exception to
`[]`; every modelled failure source (the transport) is already absorbed
by the inner handlers, so the body always returns normally and the
result is `Except.ok` by construction — which is exactly the
no-unhandled-exception guarantee in this embedding. -/
def scrapeCompanyBlogV2 (companyName website : String) (newsPageUrl : Option String)
    (maxArticles : ℕ) (fetch : String → Except String (ℕ × String × String))
    (parse : String → Soup) (titleSearch : String → Option String) :
    Except String (List Item) :=
  let blogUrls :=
    match newsPageUrl with
    | some u => [u]
    | none => detectBlogUrls website
  Except.ok (scrapeLoopV2 companyName maxArticles fetch parse titleSearch blogUrls)

/-! ## The dedup invariant (claim C8) -/

/-- Run invariant: the emitted records carry pairwise distinct
`source_url`s, all of which are registered in `seen_urls`. -/
def Inv (items : List Item) (seen : List String) : Prop :=
  (items.map Item.source_url).Nodup ∧ ∀ it ∈ items, it.source_url ∈ seen

theorem inv_nil : Inv [] [] := ⟨List.nodup_nil, by simp⟩

theorem inv_snoc (items : List Item) (seen : List String) (it : Item)
    (hInv : Inv items seen) (hnot : it.source_url ∉ seen) :
    Inv (items ++ [it]) (seen ++ [it.source_url]) := by
  obtain ⟨hnd, hmem⟩ := hInv
  constructor
  · rw [List.map_append]
    refine List.Nodup.append hnd (List.nodup_singleton _) ?_
    intro a ha hb
    rw [List.map_singleton, List.mem_singleton] at hb
    subst hb
    rcases List.mem_map.mp ha with ⟨it2, hit2, heq⟩
    exact hnot (heq ▸ hmem it2 hit2)
  · intro x hx
    rcases List.mem_append.mp hx with hx | hx
    · exact List.mem_append_left _ (hmem x hx)
    · rcases List.mem_singleton.mp hx with rfl
      exact List.mem_append_right _ (List.mem_singleton_self _)

theorem emitLoop_spec (companyName : String) (cfg : SourceConfig)
    (snapPath : Option String) (maxArticles : ℕ) :
    ∀ (arts : List (ℕ × String × String)) (acc items : List Item) (seen : List String),
      Inv (acc ++ items) seen →
      Inv (acc ++ (emitLoop companyName cfg snapPath maxArticles arts items seen).1)
          (emitLoop companyName cfg snapPath maxArticles arts items seen).2 ∧
      ∀ u ∈ seen, u ∈ (emitLoop companyName cfg snapPath maxArticles arts items seen).2 := by
  intro arts
  induction arts with
  | nil =>
    intro acc items seen h
    exact ⟨h, fun u hu => hu⟩
  | cons a rest ih =>
    rcases a with ⟨idx, url, title⟩
    intro acc items seen h
    by_cases hseen : url ∈ seen
    · simp only [emitLoop, if_pos hseen]
      exact ih acc items seen h
    · simp only [emitLoop, if_neg hseen]
      have hnot : (mkItemV1 companyName cfg snapPath idx url title).source_url ∉ seen :=
        hseen
      have hsnoc := inv_snoc (acc ++ items) seen _ h hnot
      rw [List.append_assoc] at hsnoc
      by_cases hmax : maxArticles ≤
          (items ++ [mkItemV1 companyName cfg snapPath idx url title]).length
      · rw [if_pos hmax]
        exact ⟨hsnoc, fun u hu => List.mem_append_left _ hu⟩
      · rw [if_neg hmax]
        have hres := ih acc (items ++ [mkItemV1 companyName cfg snapPath idx url title])
          (seen ++ [url]) hsnoc
        exact ⟨hres.1, fun u hu => hres.2 u (List.mem_append_left _ hu)⟩

theorem scrapeSourceUrls_spec (companyName : String) (cfg : SourceConfig)
    (maxArticles : ℕ) (st : Settings) (transport : String → ℕ → GetOutcome)
    (headless : Option String) (parse : String → Soup) (dec : String → String)
    (snap : String → String → Option String) :
    ∀ (urls : List String) (acc items : List Item) (seen : List String),
      Inv (acc ++ items) seen →
      Inv (acc ++ (scrapeSourceUrls companyName cfg maxArticles st transport headless
            parse dec snap urls items seen).1)
          (scrapeSourceUrls companyName cfg maxArticles st transport headless
            parse dec snap urls items seen).2 ∧
      ∀ u ∈ seen, u ∈ (scrapeSourceUrls companyName cfg maxArticles st transport headless
          parse dec snap urls items seen).2 := by
  intro urls
  induction urls with
  | nil =>
    intro acc items seen h
    exact ⟨h, fun u hu => hu⟩
  | cons url rest ih =>
    intro acc items seen h
    simp only [scrapeSourceUrls]
    split
    · exact ih acc items seen h
    · split
      · exact ih acc items seen h
      · split
        · exact ih acc items seen h
        · rename_i html finalUrl hfetch hhtml harts
          obtain ⟨hemit, hsub⟩ := emitLoop_spec companyName cfg
            (snap finalUrl html) maxArticles
            ((V1.extractArticles (parse html) finalUrl (selectorsOf cfg) dec).enum.map
              fun p => (p.1, p.2.1, p.2.2)) acc items seen h
          split
          · exact ⟨hemit, hsub⟩
          · have hres := ih acc _ _ hemit
            exact ⟨hres.1, fun u hu => hres.2 u (hsub u hu)⟩

theorem sourcesLoop_nodup (companyName : String) (maxArticles : ℕ) (st : Settings)
    (transport : String → ℕ → GetOutcome) (headless : Option String)
    (parse : String → Soup) (dec : String → String)
    (snap : String → String → Option String) :
    ∀ (cfgs : List SourceConfig) (items : List Item) (seen : List String),
      Inv items seen →
      ((sourcesLoop companyName maxArticles st transport headless parse dec snap
          cfgs items seen).map Item.source_url).Nodup := by
  intro cfgs
  induction cfgs with
  | nil =>
    intro items seen h
    exact h.1
  | cons cfg rest ih =>
    intro items seen h
    simp only [sourcesLoop]
    have h0 : Inv (items ++ []) seen := by rwa [List.append_nil]
    obtain ⟨hres, _⟩ := scrapeSourceUrls_spec companyName cfg
      (match cfg.max_articles with
        | some n => if n = 0 then maxArticles else n
        | none => maxArticles)
      st transport headless parse dec snap cfg.urls items [] seen h0
    exact ih _ _ hres

/-- C8: within a single crawl run, no two emitted article records share
a `source_url` — proved for every input, configuration list and oracle
behavior of the V1 pipeline, whose run-wide `seen_urls` set makes every
candidate whose URL was already emitted be skipped. -/
theorem C8_no_duplicate_source_urls (companyName : String) (maxArticles : ℕ)
    (sourceConfigs : List SourceConfig) (st : Settings)
    (transport : String → ℕ → GetOutcome) (headless : Option String)
    (parse : String → Soup) (dec : String → String)
    (snap : String → String → Option String) :
    ((scrapeCompanyBlogV1 companyName maxArticles sourceConfigs st transport headless
        parse dec snap).map Item.source_url).Nodup := by
  unfold scrapeCompanyBlogV1
  split
  · simp
  · exact sourcesLoop_nodup companyName maxArticles st transport headless parse dec snap
      sourceConfigs [] [] inv_nil

/-! ## Absorption of per-source failures (claim C4) -/

/-- A candidate URL that is not reachable: the GET raised, or the
response is not a 200. -/
def unreachableResp (r : Except String (ℕ × String × String)) : Prop :=
  (∃ e, r = Except.error e) ∨ (∃ s t fu, r = Except.ok (s, t, fu) ∧ s ≠ 200)

theorem scrapeLoopV2_unreachable (companyName : String) (maxArticles : ℕ)
    (fetch : String → Except String (ℕ × String × String))
    (parse : String → Soup) (titleSearch : String → Option String)
    (h : ∀ u, unreachableResp (fetch u)) :
    ∀ urls, scrapeLoopV2 companyName maxArticles fetch parse titleSearch urls = [] := by
  intro urls
  induction urls with
  | nil => rfl
  | cons u rest ih =>
    rcases h u with ⟨e, he⟩ | ⟨s, t, fu, he, hs⟩
    · simp only [scrapeLoopV2, he]
      exact ih
    · simp only [scrapeLoopV2, he]
      split_ifs <;> exact ih

/-- C4: for every company context and every oracle behavior, the crawl
entry point (V2 `scrape_company_blog`, the definition bound to the
module name) returns normally — per-URL failures are absorbed by the
inner handlers, so the embedded exception channel is always `ok` — and
a company none of whose candidate source URLs is reachable yields the
empty article list. -/
theorem C4_run_crawl_absorbs_failures (companyName website : String)
    (newsPageUrl : Option String) (maxArticles : ℕ)
    (fetch : String → Except String (ℕ × String × String))
    (parse : String → Soup) (titleSearch : String → Option String) :
    (∃ l, scrapeCompanyBlogV2 companyName website newsPageUrl maxArticles fetch parse
        titleSearch = Except.ok l) ∧
    ((∀ u, unreachableResp (fetch u)) →
      scrapeCompanyBlogV2 companyName website newsPageUrl maxArticles fetch parse
        titleSearch = Except.ok []) := by
  constructor
  · exact ⟨_, rfl⟩
  · intro h
    unfold scrapeCompanyBlogV2
    dsimp only
    rw [scrapeLoopV2_unreachable companyName maxArticles fetch parse titleSearch h]

/-- A transport that raises a connection error on every URL. -/
def fetchDead : String → Except String (ℕ × String × String) :=
  fun _ => Except.error "connection refused"

/-- A parsed document with nothing in it. -/
def soupEmpty : Soup := ⟨fun _ => some [], [], []⟩

theorem C4_run_crawl_absorbs_failures_witness :
    (∀ u, unreachableResp (fetchDead u)) ∧
    scrapeCompanyBlogV2 "Acme" "https://acme.example" none 10 fetchDead
      (fun _ => soupEmpty) (fun _ => none) = Except.ok [] :=
  ⟨fun _ => Or.inl ⟨"connection refused", rfl⟩,
   (C4_run_crawl_absorbs_failures "Acme" "https://acme.example" none 10 fetchDead
     (fun _ => soupEmpty) (fun _ => none)).2 (fun _ => Or.inl ⟨"connection refused", rfl⟩)⟩

end ShortNews
